import Mathlib

/-!
Verification of the asynchronous job execution and progress-notification core
of the ContentCurator backend (FastAPI + SQLAlchemy application).

The development shallowly embeds the Python source:

* app/services/websocket_manager.py — the ConnectionManager registry
  (connect / disconnect / send_job_update / broadcast / send_personal_message);
* app/services/job_tracker.py — JobTracker.update_job;
* app/routers/jobs.py — delete_job / get_job / list_jobs;
* app/routers/ingestion.py — run_topic_ingestion_job;
* app/routers/research.py — run_research_job;
* app/services/topic_ingestion_service.py — TopicIngestionService.ingest_topic;
* app/routers/embeddings.py — compute_connections_task;
* app/routers/websocket.py — websocket_job_updates.

WebSocket connections are identified by natural numbers.  Python sets are
modelled as lists without duplicates (insertion order fixed arbitrarily; no
verified property depends on iteration order), and the job-id keyed dict of
subscriber sets as an association list.  External network calls (web search,
content fetch, LLM processing, per-item persistence, socket sends) are
suspension points that may raise in Python; they are modelled as oracle
functions returning Except or Bool outcomes supplied by an environment
structure.  Database commits of the job row itself are modelled as reliable
(persistence failures are outside the scope of the embedded claims).
-/

namespace ContentCurator

/-- Identifier of a live WebSocket connection. -/
abbrev Conn := Nat

/-- Addition to a Python set: no effect when the element is present. -/
def setAdd (l : List Conn) (x : Conn) : List Conn :=
  if x ∈ l then l else l ++ [x]

/-- Removal via Python set.discard: no effect when the element is absent.
On duplicate-free lists List.erase is exactly set removal. -/
def setDiscard (l : List Conn) (x : Conn) : List Conn :=
  l.erase x

/-- State of ConnectionManager (websocket_manager.py, lines 15-19):
all_connections is the global set, active_connections the dict from job id
to the set of subscribed connections. -/
structure CMState where
  allConns : List Conn
  active : List (Nat × List Conn)
deriving DecidableEq, Repr

/-- Empty registry, as built by the ConnectionManager constructor. -/
def CMState.empty : CMState := ⟨[], []⟩

/-- Replacement of the set stored under a key of the dict (mutation of
active_connections[job_id] in place). -/
def replaceEntry (l : List (Nat × List Conn)) (j : Nat) (S : List Conn) :
    List (Nat × List Conn) :=
  l.map (fun p => if p.1 = j then (j, S) else p)

/-- Lookup of the subscriber set of a job, empty when the job id is not a
key of active_connections. -/
def CMState.subscribers (s : CMState) (j : Nat) : List Conn :=
  (s.active.lookup j).getD []

/-- ConnectionManager.connect (websocket_manager.py, lines 21-38): the
connection is added to the global set, and, when a job id is given, to that
job's subscriber set (creating the dict entry on demand). -/
def CMState.connect (s : CMState) (ws : Conn) (jobId : Option Nat) : CMState :=
  let all := setAdd s.allConns ws
  match jobId with
  | some j =>
    match s.active.lookup j with
    | some S => { allConns := all, active := replaceEntry s.active j (setAdd S ws) }
    | none => { allConns := all, active := s.active ++ [(j, [ws])] }
  | none => { allConns := all, active := s.active }

/-- ConnectionManager.disconnect (websocket_manager.py, lines 40-59): the
connection is discarded from the global set; when a job id is given and is a
key of the dict, it is discarded from that set only, and the dict entry is
deleted if the set became empty; otherwise (no job id, or an unknown job id)
it is discarded from every per-job set, entries being kept even when empty. -/
def CMState.disconnect (s : CMState) (ws : Conn) (jobId : Option Nat) : CMState :=
  let all := setDiscard s.allConns ws
  match jobId with
  | some j =>
    match s.active.lookup j with
    | some S =>
      let S' := setDiscard S ws
      if S' = [] then
        { allConns := all, active := s.active.filter (fun p => p.1 ≠ j) }
      else
        { allConns := all, active := replaceEntry s.active j S' }
    | none =>
      { allConns := all, active := s.active.map (fun p => (p.1, setDiscard p.2 ws)) }
  | none =>
    { allConns := all, active := s.active.map (fun p => (p.1, setDiscard p.2 ws)) }

/-- Outcome of one pass of a send loop: the new registry state, the
connections a send was attempted to, and those whose send succeeded. -/
structure SendResult where
  state : CMState
  attempted : List Conn
  delivered : List Conn
deriving DecidableEq, Repr

/-- ConnectionManager.send_job_update (websocket_manager.py, lines 69-97):
nothing happens when no connection is subscribed to the job; otherwise the
message is sent to every subscriber, a per-connection exception (the oracle
fails) is caught and the connection is collected, and afterwards every
collected connection is disconnected with the job id as argument.  The
update payload itself is independent of the registry and is not carried
here. -/
def CMState.sendJobUpdate (s : CMState) (fails : Conn → Bool) (j : Nat) :
    SendResult :=
  match s.active.lookup j with
  | none => ⟨s, [], []⟩
  | some S =>
    let delivered := S.filter (fun c => !(fails c))
    let disconnected := S.filter (fun c => fails c)
    let s' := disconnected.foldl (fun st c => st.disconnect c (some j)) s
    ⟨s', S, delivered⟩

/-- ConnectionManager.broadcast (websocket_manager.py, lines 99-118): the
message is sent to a snapshot of the global set, per-connection exceptions
are caught and the failing connections collected, and afterwards every
collected connection is disconnected with no job id. -/
def CMState.broadcast (s : CMState) (fails : Conn → Bool) : SendResult :=
  let delivered := s.allConns.filter (fun c => !(fails c))
  let disconnected := s.allConns.filter (fun c => fails c)
  let s' := disconnected.foldl (fun st c => st.disconnect c none) s
  ⟨s', s.allConns, delivered⟩

/-- ConnectionManager.send_personal_message (websocket_manager.py, lines
61-67): one send to one connection; on an exception the connection is
discarded from the global set only.  Returns the state and whether the
message was delivered. -/
def CMState.sendPersonalMessage (s : CMState) (fails : Conn → Bool) (ws : Conn) :
    CMState × Bool :=
  if fails ws then ({ s with allConns := setDiscard s.allConns ws }, false)
  else (s, true)

/-- Well-formedness of a registry state: the global set and every subscriber
set are duplicate-free, and dict keys are unique.  Every state reachable from
the empty registry through the operations above satisfies this. -/
def CMState.WF (s : CMState) : Prop :=
  s.allConns.Nodup ∧ (s.active.map Prod.fst).Nodup ∧ ∀ p ∈ s.active, p.2.Nodup

section RegistryLemmas

lemma lookup_cons_eq (a : Nat) (b : List Conn) (t : List (Nat × List Conn))
    (k : Nat) :
    ((a, b) :: t).lookup k = if a = k then some b else t.lookup k := by
  rw [List.lookup_cons]
  by_cases h : a = k
  · simp [h]
  · have hb : (k == a) = false := by simpa using fun hh => h hh.symm
    simp [hb, h]

lemma lookup_replaceEntry_self {l : List (Nat × List Conn)} {j : Nat}
    {S : List Conn} (S' : List Conn) (h : l.lookup j = some S) :
    (replaceEntry l j S').lookup j = some S' := by
  induction l with
  | nil => simp at h
  | cons p t ih =>
    obtain ⟨a, b⟩ := p
    by_cases hp : a = j
    · subst hp
      simp [replaceEntry, lookup_cons_eq]
    · rw [lookup_cons_eq, if_neg hp] at h
      simp only [replaceEntry, List.map_cons] at ih ⊢
      rw [if_neg hp, lookup_cons_eq, if_neg hp]
      exact ih h

lemma lookup_replaceEntry_ne {l : List (Nat × List Conn)} {j k : Nat}
    (S' : List Conn) (hk : k ≠ j) :
    (replaceEntry l j S').lookup k = l.lookup k := by
  induction l with
  | nil => simp [replaceEntry]
  | cons p t ih =>
    obtain ⟨a, b⟩ := p
    simp only [replaceEntry, List.map_cons] at ih ⊢
    by_cases hp : a = j
    · subst hp
      rw [if_pos rfl, lookup_cons_eq, lookup_cons_eq,
        if_neg (fun h => hk h.symm), if_neg (fun h => hk h.symm)]
      exact ih
    · rw [if_neg hp, lookup_cons_eq, lookup_cons_eq]
      by_cases hak : a = k
      · simp [hak]
      · rw [if_neg hak, if_neg hak]
        exact ih

lemma replaceEntry_idem (l : List (Nat × List Conn)) (j : Nat) (S : List Conn) :
    replaceEntry (replaceEntry l j S) j S = replaceEntry l j S := by
  simp only [replaceEntry, List.map_map]
  apply List.map_congr_left
  intro p _
  by_cases hp : p.1 = j <;> simp [hp]

lemma replaceEntry_lookup_self {l : List (Nat × List Conn)} {j : Nat}
    {S : List Conn} (hkeys : (l.map Prod.fst).Nodup) (h : l.lookup j = some S) :
    replaceEntry l j S = l := by
  induction l with
  | nil => simp [replaceEntry]
  | cons p t ih =>
    obtain ⟨a, b⟩ := p
    simp only [List.map_cons, List.nodup_cons] at hkeys
    simp only [replaceEntry, List.map_cons] at ih ⊢
    by_cases hp : a = j
    · subst hp
      rw [lookup_cons_eq, if_pos rfl] at h
      obtain rfl : b = S := by simpa using h
      have ht : List.map (fun p => if p.1 = a then (a, b) else p) t = t := by
        have hid : List.map (fun p => if p.1 = a then (a, b) else p) t =
            List.map id t := by
          apply List.map_congr_left
          intro q hq
          have hqa : q.1 ≠ a := fun hj =>
            hkeys.1 (hj ▸ List.mem_map_of_mem Prod.fst hq)
          simp [hqa]
        simpa using hid
      simp [ht]
    · rw [lookup_cons_eq, if_neg hp] at h
      rw [if_neg hp]
      rw [ih hkeys.2 h]

lemma lookup_filterKey_self (l : List (Nat × List Conn)) (j : Nat) :
    (l.filter (fun p => p.1 ≠ j)).lookup j = none := by
  rw [List.lookup_eq_none_iff]
  intro p hp
  have h2 := (List.mem_filter.mp hp).2
  simp only [decide_eq_true_eq] at h2
  simpa using fun h => h2 h.symm

lemma lookup_filterKey_ne {l : List (Nat × List Conn)} {j k : Nat} (hk : k ≠ j) :
    (l.filter (fun p => p.1 ≠ j)).lookup k = l.lookup k := by
  induction l with
  | nil => simp
  | cons p t ih =>
    obtain ⟨a, b⟩ := p
    by_cases hp : a = j
    · subst hp
      rw [List.filter_cons_of_neg (by simp), lookup_cons_eq,
        if_neg (fun h => hk h.symm)]
      exact ih
    · rw [List.filter_cons_of_pos (by simpa using hp), lookup_cons_eq,
        lookup_cons_eq]
      by_cases hak : a = k
      · simp [hak]
      · rw [if_neg hak, if_neg hak]
        exact ih

lemma lookup_mapDiscard (ws : Conn) (l : List (Nat × List Conn))
    (k : Nat) :
    (l.map (fun p => (p.1, setDiscard p.2 ws))).lookup k =
      (l.lookup k).map (fun S => setDiscard S ws) := by
  induction l with
  | nil => simp
  | cons p t ih =>
    obtain ⟨a, b⟩ := p
    simp only [List.map_cons]
    rw [lookup_cons_eq, lookup_cons_eq]
    by_cases hak : a = k
    · simp [hak]
    · rw [if_neg hak, if_neg hak]
      exact ih

lemma lookup_mem {l : List (Nat × List Conn)} {j : Nat} {S : List Conn}
    (h : l.lookup j = some S) : (j, S) ∈ l := by
  induction l with
  | nil => simp at h
  | cons p t ih =>
    obtain ⟨a, b⟩ := p
    rw [lookup_cons_eq] at h
    by_cases hp : a = j
    · rw [if_pos hp] at h
      obtain rfl : b = S := by simpa using h
      subst hp
      exact List.mem_cons_self _ _
    · rw [if_neg hp] at h
      exact List.mem_cons_of_mem _ (ih h)

lemma erase_erase_self {l : List Conn} (h : l.Nodup) (x : Conn) :
    (l.erase x).erase x = l.erase x :=
  List.erase_of_not_mem (h.not_mem_erase)

lemma filter_fails_single {l : List Conn} {f : Conn} {fails : Conn → Bool}
    (hnd : l.Nodup) (hf : f ∈ l) (hft : fails f = true)
    (hothers : ∀ c ∈ l, c ≠ f → fails c = false) :
    l.filter (fun c => fails c) = [f] := by
  induction l with
  | nil => simp at hf
  | cons a t ih =>
    simp only [List.nodup_cons] at hnd
    rcases List.mem_cons.mp hf with rfl | hft'
    · have ht : t.filter (fun c => fails c) = [] := by
        apply List.filter_eq_nil_iff.mpr
        intro c hc
        simp [hothers c (List.mem_cons_of_mem _ hc)
          (fun hcf => hnd.1 (hcf ▸ hc))]
      simp [List.filter_cons, hft, ht]
    · have haf : a ≠ f := fun h => hnd.1 (h ▸ hft')
      have : fails a = false := hothers a (List.mem_cons_self _ _) haf
      simp only [List.filter_cons, this]
      exact ih hnd.2 hft' (fun c hc => hothers c (List.mem_cons_of_mem _ hc))

lemma filter_not_fails_erase {l : List Conn} {f : Conn} {fails : Conn → Bool}
    (hnd : l.Nodup) (hft : fails f = true)
    (hothers : ∀ c ∈ l, c ≠ f → fails c = false) :
    l.filter (fun c => !(fails c)) = l.erase f := by
  induction l with
  | nil => simp
  | cons a t ih =>
    simp only [List.nodup_cons] at hnd
    by_cases haf : a = f
    · subst haf
      have ht : t.filter (fun c => !(fails c)) = t := by
        apply List.filter_eq_self.mpr
        intro c hc
        simp [hothers c (List.mem_cons_of_mem _ hc)
          (fun hcf => hnd.1 (hcf ▸ hc))]
      simp [List.filter_cons, hft, ht, List.erase_cons_head]
    · have : fails a = false := hothers a (List.mem_cons_self _ _) haf
      rw [List.filter_cons_of_pos (by simp [this]),
        List.erase_cons_tail (by simpa using haf)]
      rw [ih hnd.2 (fun c hc => hothers c (List.mem_cons_of_mem _ hc))]

lemma disconnect_allConns (s : CMState) (ws : Conn) (jid : Option Nat) :
    (s.disconnect ws jid).allConns = s.allConns.erase ws := by
  unfold CMState.disconnect
  cases jid with
  | none => rfl
  | some j =>
    cases h : s.active.lookup j with
    | none =>
      simp only [h]
      rfl
    | some S =>
      simp only [h]
      split <;> rfl

lemma not_mem_subscribers_disconnect_self (s : CMState) (ws : Conn) (j : Nat)
    (hS : ∀ p ∈ s.active, p.2.Nodup) :
    ws ∉ (s.disconnect ws (some j)).subscribers j := by
  unfold CMState.disconnect
  cases h : s.active.lookup j with
  | none =>
    simp only [h, CMState.subscribers]
    rw [lookup_mapDiscard]
    simp [h]
  | some S =>
    have hSnd : S.Nodup := hS _ (lookup_mem h)
    simp only [h]
    by_cases hE : setDiscard S ws = []
    · rw [if_pos hE]
      simp only [CMState.subscribers]
      rw [lookup_filterKey_self]
      simp
    · rw [if_neg hE]
      simp only [CMState.subscribers]
      rw [lookup_replaceEntry_self _ h]
      simpa [setDiscard] using hSnd.not_mem_erase

lemma not_mem_subscribers_disconnect_none (s : CMState) (ws : Conn) (k : Nat)
    (hS : ∀ p ∈ s.active, p.2.Nodup) :
    ws ∉ (s.disconnect ws none).subscribers k := by
  unfold CMState.disconnect
  simp only [CMState.subscribers]
  rw [lookup_mapDiscard]
  cases h : s.active.lookup k with
  | none => simp [h]
  | some T =>
    have hT : T.Nodup := hS _ (lookup_mem h)
    simpa [h, setDiscard] using hT.not_mem_erase

lemma mem_attempted_sendJobUpdate {s : CMState} {fails : Conn → Bool} {j : Nat}
    {c : Conn} (h : c ∈ (s.sendJobUpdate fails j).attempted) :
    c ∈ s.subscribers j := by
  unfold CMState.sendJobUpdate at h
  cases hl : s.active.lookup j with
  | none => simp [hl] at h
  | some S =>
    simp only [hl] at h
    simpa [CMState.subscribers, hl] using h

lemma lookup_eq_of_mem {l : List (Nat × List Conn)} {p : Nat × List Conn}
    (hkeys : (l.map Prod.fst).Nodup) (h : p ∈ l) : l.lookup p.1 = some p.2 := by
  induction l with
  | nil => simp at h
  | cons q t ih =>
    obtain ⟨a, b⟩ := q
    simp only [List.map_cons, List.nodup_cons] at hkeys
    rcases List.mem_cons.mp h with rfl | hmem
    · simp [lookup_cons_eq]
    · rw [lookup_cons_eq]
      have hne : a ≠ p.1 := fun hp =>
        hkeys.1 (hp ▸ List.mem_map_of_mem Prod.fst hmem)
      rw [if_neg hne]
      exact ih hkeys.2 hmem

lemma disconnect_eq_of_lookup_none {s : CMState} {ws : Conn} {j : Nat}
    (hl : s.active.lookup j = none) :
    s.disconnect ws (some j) =
      ⟨setDiscard s.allConns ws,
       s.active.map (fun p => (p.1, setDiscard p.2 ws))⟩ := by
  unfold CMState.disconnect
  simp only [hl]

lemma disconnect_eq_of_erase_empty {s : CMState} {ws : Conn} {j : Nat}
    {S : List Conn} (hl : s.active.lookup j = some S)
    (hE : setDiscard S ws = []) :
    s.disconnect ws (some j) =
      ⟨setDiscard s.allConns ws, s.active.filter (fun p => p.1 ≠ j)⟩ := by
  unfold CMState.disconnect
  simp only [hl, hE]
  simp

lemma disconnect_eq_of_erase_ne {s : CMState} {ws : Conn} {j : Nat}
    {S : List Conn} (hl : s.active.lookup j = some S)
    (hE : ¬ setDiscard S ws = []) :
    s.disconnect ws (some j) =
      ⟨setDiscard s.allConns ws, replaceEntry s.active j (setDiscard S ws)⟩ := by
  unfold CMState.disconnect
  simp only [hl]
  rw [if_neg hE]

lemma disconnect_none_eq (s : CMState) (ws : Conn) :
    s.disconnect ws none =
      ⟨setDiscard s.allConns ws,
       s.active.map (fun p => (p.1, setDiscard p.2 ws))⟩ := rfl

lemma mapDiscard_mapDiscard {l : List (Nat × List Conn)} {ws : Conn}
    (hsets : ∀ p ∈ l, p.2.Nodup) :
    (l.map (fun p => (p.1, setDiscard p.2 ws))).map
        (fun p => (p.1, setDiscard p.2 ws)) =
      l.map (fun p => (p.1, setDiscard p.2 ws)) := by
  rw [List.map_map]
  apply List.map_congr_left
  intro p hp
  simp only [Function.comp]
  rw [show setDiscard (setDiscard p.2 ws) ws = setDiscard p.2 ws from
    erase_erase_self (hsets p hp) ws]

end RegistryLemmas

/-- C2: when the registry delivers a per-job update (send_job_update) or a
broadcast and exactly one of the currently subscribed connections raises on
send, every other subscribed connection is still sent the message, the
raising connection is removed from the registry (from the global set and
from the job's subscriber sets), and a subsequent send or broadcast attempts
no delivery to the removed connection.  Both operations are total functions
of the state, so the call never raises to its caller. -/
theorem send_failure_isolation (s : CMState) (fails fails2 : Conn → Bool)
    (j : Nat) (f : Conn) (hWF : s.WF) (hft : fails f = true) :
    (f ∈ s.subscribers j →
      (∀ c ∈ s.subscribers j, c ≠ f → fails c = false) →
      (s.sendJobUpdate fails j).delivered = (s.subscribers j).erase f ∧
      f ∉ (s.sendJobUpdate fails j).state.allConns ∧
      f ∉ (s.sendJobUpdate fails j).state.subscribers j ∧
      f ∉ ((s.sendJobUpdate fails j).state.sendJobUpdate fails2 j).attempted ∧
      f ∉ ((s.sendJobUpdate fails j).state.broadcast fails2).attempted) ∧
    (f ∈ s.allConns →
      (∀ c ∈ s.allConns, c ≠ f → fails c = false) →
      (s.broadcast fails).delivered = s.allConns.erase f ∧
      f ∉ (s.broadcast fails).state.allConns ∧
      (∀ k, f ∉ (s.broadcast fails).state.subscribers k) ∧
      f ∉ ((s.broadcast fails).state.broadcast fails2).attempted ∧
      (∀ k, f ∉ ((s.broadcast fails).state.sendJobUpdate fails2 k).attempted)) := by
  obtain ⟨hall, hkeys, hsets⟩ := hWF
  constructor
  · intro hmem honly
    cases hl : s.active.lookup j with
    | none =>
      rw [CMState.subscribers, hl] at hmem
      simp at hmem
    | some S =>
      have hSsub : s.subscribers j = S := by rw [CMState.subscribers, hl]; rfl
      rw [hSsub] at hmem honly ⊢
      have hSnd : S.Nodup := hsets _ (lookup_mem hl)
      have hdel : S.filter (fun c => !(fails c)) = S.erase f :=
        filter_not_fails_erase hSnd hft honly
      have hdis : S.filter (fun c => fails c) = [f] :=
        filter_fails_single hSnd hmem hft honly
      have hres : s.sendJobUpdate fails j =
          ⟨s.disconnect f (some j), S, S.erase f⟩ := by
        unfold CMState.sendJobUpdate
        simp only [hl, hdel, hdis, List.foldl_cons, List.foldl_nil]
      rw [hres]
      refine ⟨rfl, ?_, ?_, ?_, ?_⟩
      · rw [disconnect_allConns]
        exact hall.not_mem_erase
      · exact not_mem_subscribers_disconnect_self s f j hsets
      · intro hc
        exact not_mem_subscribers_disconnect_self s f j hsets
          (mem_attempted_sendJobUpdate hc)
      · show f ∉ (s.disconnect f (some j)).allConns
        rw [disconnect_allConns]
        exact hall.not_mem_erase
  · intro hmem honly
    have hdel : s.allConns.filter (fun c => !(fails c)) = s.allConns.erase f :=
      filter_not_fails_erase hall hft honly
    have hdis : s.allConns.filter (fun c => fails c) = [f] :=
      filter_fails_single hall hmem hft honly
    have hres : s.broadcast fails =
        ⟨s.disconnect f none, s.allConns, s.allConns.erase f⟩ := by
      unfold CMState.broadcast
      simp only [hdel, hdis, List.foldl_cons, List.foldl_nil]
    rw [hres]
    refine ⟨rfl, ?_, ?_, ?_, ?_⟩
    · rw [disconnect_allConns]
      exact hall.not_mem_erase
    · intro k
      exact not_mem_subscribers_disconnect_none s f k hsets
    · show f ∉ (s.disconnect f none).allConns
      rw [disconnect_allConns]
      exact hall.not_mem_erase
    · intro k hc
      exact not_mem_subscribers_disconnect_none s f k hsets
        (mem_attempted_sendJobUpdate hc)

/-- Witness for C2: a registry with three live connections, two of them
subscribed to job 9, where connection 2 raises on send. -/
theorem send_failure_isolation_witness :
    CMState.WF ⟨[1, 2, 3], [(9, [1, 2])]⟩ ∧
    (fun c : Conn => c == 2) 2 = true ∧
    2 ∈ CMState.subscribers ⟨[1, 2, 3], [(9, [1, 2])]⟩ 9 ∧
    2 ∈ CMState.allConns ⟨[1, 2, 3], [(9, [1, 2])]⟩ ∧
    ((CMState.sendJobUpdate ⟨[1, 2, 3], [(9, [1, 2])]⟩ (fun c => c == 2)
        9).delivered =
      (CMState.subscribers ⟨[1, 2, 3], [(9, [1, 2])]⟩ 9).erase 2 ∧
      2 ∉ (CMState.sendJobUpdate ⟨[1, 2, 3], [(9, [1, 2])]⟩ (fun c => c == 2)
        9).state.allConns ∧
      2 ∉ (CMState.sendJobUpdate ⟨[1, 2, 3], [(9, [1, 2])]⟩ (fun c => c == 2)
        9).state.subscribers 9 ∧
      2 ∉ ((CMState.sendJobUpdate ⟨[1, 2, 3], [(9, [1, 2])]⟩ (fun c => c == 2)
        9).state.sendJobUpdate (fun _ => false) 9).attempted ∧
      2 ∉ ((CMState.sendJobUpdate ⟨[1, 2, 3], [(9, [1, 2])]⟩ (fun c => c == 2)
        9).state.broadcast (fun _ => false)).attempted) ∧
    ((CMState.broadcast ⟨[1, 2, 3], [(9, [1, 2])]⟩ (fun c => c == 2)).delivered =
      (CMState.allConns ⟨[1, 2, 3], [(9, [1, 2])]⟩).erase 2 ∧
      2 ∉ (CMState.broadcast ⟨[1, 2, 3], [(9, [1, 2])]⟩
        (fun c => c == 2)).state.allConns ∧
      (∀ k, 2 ∉ (CMState.broadcast ⟨[1, 2, 3], [(9, [1, 2])]⟩
        (fun c => c == 2)).state.subscribers k) ∧
      2 ∉ ((CMState.broadcast ⟨[1, 2, 3], [(9, [1, 2])]⟩
        (fun c => c == 2)).state.broadcast (fun _ => false)).attempted ∧
      (∀ k, 2 ∉ ((CMState.broadcast ⟨[1, 2, 3], [(9, [1, 2])]⟩
        (fun c => c == 2)).state.sendJobUpdate (fun _ => false) k).attempted)) :=
  ⟨⟨by decide, by decide, by decide⟩, by decide, by decide, by decide,
    (send_failure_isolation ⟨[1, 2, 3], [(9, [1, 2])]⟩ (fun c => c == 2)
      (fun _ => false) 9 2 ⟨by decide, by decide, by decide⟩ (by decide)).1
      (by decide) (by decide),
    (send_failure_isolation ⟨[1, 2, 3], [(9, [1, 2])]⟩ (fun c => c == 2)
      (fun _ => false) 9 2 ⟨by decide, by decide, by decide⟩ (by decide)).2
      (by decide) (by decide)⟩


/-- C10 counterexample: disconnect is not idempotent.  Reachable trace:
connect connection 1 to job 5, connect connection 2 to job 7, then
disconnect connection 1 with no job id — this leaves the dict entry of job 5
as an empty set.  Disconnecting connection 2 with job id 5 once deletes that
empty entry and leaves connection 2 subscribed to job 7; doing it a second
time falls into the remove-from-every-set branch (job 5 is no longer a key)
and strips connection 2 from the subscriber set of job 7, so the state after
two identical disconnect calls differs from the state after one. -/
theorem disconnect_not_idempotent :
    (((CMState.empty.connect 1 (some 5)).connect 2 (some 7)).disconnect 1
        none).disconnect 2 (some 5) ≠
      ((((CMState.empty.connect 1 (some 5)).connect 2 (some 7)).disconnect 1
        none).disconnect 2 (some 5)).disconnect 2 (some 5) ∧
    (((((CMState.empty.connect 1 (some 5)).connect 2 (some 7)).disconnect 1
        none).disconnect 2 (some 5)).subscribers 7 = [2] ∧
      ((((((CMState.empty.connect 1 (some 5)).connect 2 (some 7)).disconnect 1
        none).disconnect 2 (some 5)).disconnect 2 (some 5)).subscribers 7 =
        [])) := by
  constructor
  · decide
  · constructor <;> decide

/-- C10 amended: disconnect is a total operation (it never raises, being a
total function of the registry state), disconnecting a connection that is
registered nowhere leaves the global set and every job's subscriber set
unchanged, disconnecting twice with no job id equals disconnecting once on
any well-formed state, and disconnecting twice with a job id equals
disconnecting once provided the connection is subscribed to no job other
than the given one.  (Without that proviso the claim fails: see the
counterexample, where the second call falls into the remove-from-every-set
branch.) -/
theorem disconnect_total_unregistered_idempotent (s : CMState) (ws : Conn) :
    (∀ jobId, ws ∉ s.allConns → (∀ k, ws ∉ s.subscribers k) →
      (s.disconnect ws jobId).allConns = s.allConns ∧
      ∀ k, (s.disconnect ws jobId).subscribers k = s.subscribers k) ∧
    (s.WF → (s.disconnect ws none).disconnect ws none = s.disconnect ws none) ∧
    (s.WF → ∀ j, (∀ k, k ≠ j → ws ∉ s.subscribers k) →
      (s.disconnect ws (some j)).disconnect ws (some j) =
        s.disconnect ws (some j)) := by
  refine ⟨?_, ?_, ?_⟩
  · intro jobId hall hsub
    have hallE : s.allConns.erase ws = s.allConns := List.erase_of_not_mem hall
    have hmapD : ∀ k, ((s.active.map
        (fun p => (p.1, setDiscard p.2 ws))).lookup k).getD [] =
        (s.active.lookup k).getD [] := by
      intro k
      rw [lookup_mapDiscard]
      cases hk : s.active.lookup k with
      | none => simp
      | some T =>
        have hT : ws ∉ T := by
          have := hsub k
          rw [CMState.subscribers, hk] at this
          simpa using this
        simp [setDiscard, List.erase_of_not_mem hT]
    cases jobId with
    | none =>
      rw [disconnect_none_eq]
      exact ⟨hallE, hmapD⟩
    | some j =>
      cases hl : s.active.lookup j with
      | none =>
        rw [disconnect_eq_of_lookup_none hl]
        exact ⟨hallE, hmapD⟩
      | some S =>
        have hwsS : ws ∉ S := by
          have := hsub j
          rw [CMState.subscribers, hl] at this
          simpa using this
        have hSE : setDiscard S ws = S := List.erase_of_not_mem hwsS
        by_cases hS0 : S = []
        · have hEe : setDiscard S ws = [] := by rw [hSE, hS0]
          rw [disconnect_eq_of_erase_empty hl hEe]
          refine ⟨hallE, ?_⟩
          intro k
          by_cases hk : k = j
          · subst hk
            simp only [CMState.subscribers]
            rw [lookup_filterKey_self, hl]
            simp [hS0]
          · simp only [CMState.subscribers]
            rw [lookup_filterKey_ne hk]
        · have hEe : ¬ setDiscard S ws = [] := by rw [hSE]; exact hS0
          rw [disconnect_eq_of_erase_ne hl hEe]
          refine ⟨hallE, ?_⟩
          intro k
          by_cases hk : k = j
          · subst hk
            simp only [CMState.subscribers]
            rw [lookup_replaceEntry_self _ hl, hl, hSE]
          · simp only [CMState.subscribers]
            rw [lookup_replaceEntry_ne _ hk]
  · rintro ⟨hall, hkeys, hsets⟩
    rw [disconnect_none_eq s ws, disconnect_none_eq]
    simp only [CMState.mk.injEq]
    exact ⟨erase_erase_self hall ws, mapDiscard_mapDiscard hsets⟩
  · rintro ⟨hall, hkeys, hsets⟩ j hsub
    cases hl : s.active.lookup j with
    | none =>
      rw [disconnect_eq_of_lookup_none hl]
      have hl2 : ((s.active.map
          (fun p => (p.1, setDiscard p.2 ws))).lookup j) = none := by
        rw [lookup_mapDiscard, hl]
        rfl
      rw [disconnect_eq_of_lookup_none hl2]
      simp only [CMState.mk.injEq]
      exact ⟨erase_erase_self hall ws, mapDiscard_mapDiscard hsets⟩
    | some S =>
      have hSnd : S.Nodup := hsets _ (lookup_mem hl)
      by_cases hE : setDiscard S ws = []
      · rw [disconnect_eq_of_erase_empty hl hE]
        have hl2 : ((s.active.filter (fun p => p.1 ≠ j)).lookup j) = none :=
          lookup_filterKey_self _ _
        rw [disconnect_eq_of_lookup_none hl2]
        simp only [CMState.mk.injEq]
        refine ⟨erase_erase_self hall ws, ?_⟩
        have hpw : ∀ p ∈ s.active.filter (fun p => p.1 ≠ j), ws ∉ p.2 := by
          intro p hp
          have hpm := List.mem_filter.mp hp
          have hpj : p.1 ≠ j := by simpa using hpm.2
          have hlp : s.active.lookup p.1 = some p.2 :=
            lookup_eq_of_mem hkeys hpm.1
          have := hsub p.1 hpj
          rw [CMState.subscribers, hlp] at this
          simpa using this
        have hid : (s.active.filter (fun p => p.1 ≠ j)).map
            (fun p => (p.1, setDiscard p.2 ws)) =
            (s.active.filter (fun p => p.1 ≠ j)).map id := by
          apply List.map_congr_left
          intro p hp
          have : setDiscard p.2 ws = p.2 := List.erase_of_not_mem (hpw p hp)
          simp [this]
        simpa using hid
      · rw [disconnect_eq_of_erase_ne hl hE]
        have hl2 : ((replaceEntry s.active j (setDiscard S ws)).lookup j) =
            some (setDiscard S ws) := lookup_replaceEntry_self _ hl
        have hEE : setDiscard (setDiscard S ws) ws = setDiscard S ws :=
          erase_erase_self hSnd ws
        have hE2 : ¬ setDiscard (setDiscard S ws) ws = [] := by
          rw [hEE]; exact hE
        rw [disconnect_eq_of_erase_ne hl2 hE2]
        simp only [CMState.mk.injEq]
        refine ⟨erase_erase_self hall ws, ?_⟩
        rw [hEE]
        exact replaceEntry_idem _ _ _

/-- Witness for the amended C10: a registry with connection 1 subscribed to
job 5 and connection 2 subscribed to job 7; disconnecting the unregistered
connection 3 changes nothing, and the double disconnect of connection 1 from
job 5 equals the single disconnect. -/
theorem disconnect_total_unregistered_idempotent_witness :
    (3 ∉ CMState.allConns ⟨[1, 2], [(5, [1]), (7, [2])]⟩ ∧
     (∀ k, 3 ∉ CMState.subscribers ⟨[1, 2], [(5, [1]), (7, [2])]⟩ k) ∧
     CMState.WF ⟨[1, 2], [(5, [1]), (7, [2])]⟩ ∧
     (∀ k, k ≠ 5 → 1 ∉ CMState.subscribers ⟨[1, 2], [(5, [1]), (7, [2])]⟩ k)) ∧
    ((CMState.disconnect ⟨[1, 2], [(5, [1]), (7, [2])]⟩ 3 (some 5)).allConns =
       CMState.allConns ⟨[1, 2], [(5, [1]), (7, [2])]⟩ ∧
     ∀ k, (CMState.disconnect ⟨[1, 2], [(5, [1]), (7, [2])]⟩ 3
       (some 5)).subscribers k =
       CMState.subscribers ⟨[1, 2], [(5, [1]), (7, [2])]⟩ k) ∧
    ((CMState.disconnect ⟨[1, 2], [(5, [1]), (7, [2])]⟩ 1 none).disconnect 1
       none = CMState.disconnect ⟨[1, 2], [(5, [1]), (7, [2])]⟩ 1 none) ∧
    ((CMState.disconnect ⟨[1, 2], [(5, [1]), (7, [2])]⟩ 1 (some 5)).disconnect
       1 (some 5) =
       CMState.disconnect ⟨[1, 2], [(5, [1]), (7, [2])]⟩ 1 (some 5)) := by
  have hsub3 : ∀ k, 3 ∉ CMState.subscribers ⟨[1, 2], [(5, [1]), (7, [2])]⟩ k := by
    intro k
    simp only [CMState.subscribers]
    rw [lookup_cons_eq, lookup_cons_eq]
    split_ifs <;> simp
  have hsub1 : ∀ k, k ≠ 5 →
      1 ∉ CMState.subscribers ⟨[1, 2], [(5, [1]), (7, [2])]⟩ k := by
    intro k hk
    simp only [CMState.subscribers]
    rw [lookup_cons_eq, if_neg (fun h => hk h.symm), lookup_cons_eq]
    split_ifs <;> simp
  have hwf : CMState.WF ⟨[1, 2], [(5, [1]), (7, [2])]⟩ :=
    ⟨by decide, by decide, by decide⟩
  refine ⟨⟨by decide, hsub3, hwf, hsub1⟩, ?_, ?_, ?_⟩
  · exact (disconnect_total_unregistered_idempotent
      ⟨[1, 2], [(5, [1]), (7, [2])]⟩ 3).1 (some 5) (by decide) hsub3
  · exact (disconnect_total_unregistered_idempotent
      ⟨[1, 2], [(5, [1]), (7, [2])]⟩ 1).2.1 hwf
  · exact (disconnect_total_unregistered_idempotent
      ⟨[1, 2], [(5, [1]), (7, [2])]⟩ 1).2.2 hwf 5 hsub1

/-! Job records and the jobs router. -/

/-- Response schema of the ingestion service (schemas.py, IngestionResponse). -/
structure IngestResponse where
  success : Bool
  message : String
  articles_processed : Nat
  articles_created : Nat
  articles_updated : Nat
  errors : List String
deriving DecidableEq, Repr

/-- Payload stored in the result column of a terminal job: either the dict
built by run_topic_ingestion_job (ingestion.py, lines 200-207) or the dict
built by run_research_job (research.py, lines 162-171). -/
inductive JobResultPayload where
  | ingestion (success : Bool) (message : String)
      (articles_processed articles_created articles_updated : Nat)
      (errors : List String)
  | research (success : Bool) (query : String)
      (webArticlesCreated youtubeVideosCreated totalArticlesCreated
        embeddingsGenerated connectionsComputed : Nat)
      (errors : List String)
deriving DecidableEq, Repr

/-- Modelled from the spec: the Job ORM model itself is absent from the tree
(app/models.py declares no Job class although every router imports it), so
the record follows the spec data model in section 3 — identity, job_type,
status string, integer progress, the three item counters, error_message and
result set only on terminal transitions, and the three lifecycle
timestamps.  The opaque parameters payload is not carried because no claim
reads it back.  Timestamps are abstract instants (naturals). -/
structure JobRec where
  id : Nat
  job_type : String
  status : String
  progress : Int
  total_items : Nat
  processed_items : Nat
  created_items : Nat
  error_message : Option String
  result : Option JobResultPayload
  created_at : Nat
  started_at : Option Nat
  completed_at : Option Nat
deriving DecidableEq, Repr

/-- Job creation as performed by the submitting endpoints (research.py lines
48-60, ingestion.py lines 137-149): a fresh row with status pending, the
given type and total_items, and no results.  The initial progress value
comes from the spec invariant that progress is always within [0, 100]
(the column default lives in the missing ORM model). -/
def mkJob (i : Nat) (jt : String) (total : Nat) (t : Nat) : JobRec :=
  { id := i, job_type := jt, status := "pending", progress := 0,
    total_items := total, processed_items := 0, created_items := 0,
    error_message := none, result := none,
    created_at := t, started_at := none, completed_at := none }

/-- HTTP error raised by a router endpoint. -/
structure HTTPError where
  code : Nat
  detail : String
deriving DecidableEq, Repr

/-- Router get_job and the db.query(Job).filter(Job.id == job_id).first()
pattern (jobs.py, lines 22-26): first stored row with the requested id. -/
def getJob (store : List JobRec) (i : Nat) : Option JobRec :=
  store.find? (fun j => j.id == i)

/-- Insertion step of the newest-first ordering used by list_jobs. -/
def insertByCreatedDesc (j : JobRec) : List JobRec → List JobRec
  | [] => [j]
  | a :: t =>
    if j.created_at ≥ a.created_at then j :: a :: t
    else a :: insertByCreatedDesc j t

/-- Ordering by created_at descending (jobs.py, line 66). -/
def sortByCreatedDesc : List JobRec → List JobRec
  | [] => []
  | a :: t => insertByCreatedDesc a (sortByCreatedDesc t)

/-- Router list_jobs (jobs.py, lines 51-67): optional equality filters on
job_type and status, newest-first order, first limit rows. -/
def listJobs (store : List JobRec) (jobType statusF : Option String)
    (limit : Nat) : List JobRec :=
  let q := store
  let q := match jobType with
    | some t => q.filter (fun j => j.job_type == t)
    | none => q
  let q := match statusF with
    | some st => q.filter (fun j => j.status == st)
    | none => q
  (sortByCreatedDesc q).take limit

/-- Router delete_job (jobs.py, lines 70-85): 404 when the id is unknown,
400 when the stored status is running (the row is left untouched, since the
store is only replaced by the ok branch), otherwise the found row is
deleted. -/
def deleteJob (store : List JobRec) (i : Nat) :
    Except HTTPError (List JobRec) :=
  match store.find? (fun j => j.id == i) with
  | none => .error ⟨404, "Job not found"⟩
  | some job =>
    if job.status == "running" then
      .error ⟨400, "Cannot delete a running job"⟩
    else
      .ok (store.eraseP (fun j => j.id == i))

section JobsRouterLemmas

lemma mem_insertByCreatedDesc {x j : JobRec} {l : List JobRec}
    (h : x ∈ insertByCreatedDesc j l) : x = j ∨ x ∈ l := by
  induction l with
  | nil => simpa [insertByCreatedDesc] using h
  | cons a t ih =>
    rw [insertByCreatedDesc] at h
    split at h
    · rcases List.mem_cons.mp h with rfl | hm
      · exact Or.inl rfl
      · exact Or.inr hm
    · rcases List.mem_cons.mp h with rfl | hm
      · exact Or.inr (List.mem_cons_self _ _)
      · rcases ih hm with rfl | hm2
        · exact Or.inl rfl
        · exact Or.inr (List.mem_cons_of_mem _ hm2)

lemma mem_sortByCreatedDesc {x : JobRec} {l : List JobRec}
    (h : x ∈ sortByCreatedDesc l) : x ∈ l := by
  induction l with
  | nil => simp [sortByCreatedDesc] at h
  | cons a t ih =>
    rw [sortByCreatedDesc] at h
    rcases mem_insertByCreatedDesc h with rfl | hm
    · exact List.mem_cons_self _ _
    · exact List.mem_cons_of_mem _ (ih hm)

lemma mem_listJobs {x : JobRec} {store : List JobRec}
    {jobType statusF : Option String} {limit : Nat}
    (h : x ∈ listJobs store jobType statusF limit) : x ∈ store := by
  unfold listJobs at h
  have h1 := mem_sortByCreatedDesc (List.mem_of_mem_take h)
  cases statusF <;> cases jobType <;>
    simp only at h1 <;>
    first
      | exact h1
      | exact List.mem_of_mem_filter h1
      | exact List.mem_of_mem_filter (List.mem_of_mem_filter h1)

lemma eraseP_id_ne {store : List JobRec} {i : Nat} {job : JobRec}
    (hids : (store.map JobRec.id).Nodup)
    (hfind : store.find? (fun j => j.id == i) = some job) :
    ∀ x ∈ store.eraseP (fun j => j.id == i), x.id ≠ i := by
  induction store with
  | nil => simp at hfind
  | cons a t ih =>
    simp only [List.map_cons, List.nodup_cons] at hids
    by_cases ha : a.id = i
    · rw [List.eraseP_cons_of_pos (by simpa using ha)]
      intro x hx hxi
      have hmem : a.id ∈ List.map JobRec.id t := by
        rw [ha, ← hxi]
        exact List.mem_map_of_mem JobRec.id hx
      exact hids.1 hmem
    · rw [List.eraseP_cons_of_neg (by simpa using ha)]
      rw [List.find?_cons_of_neg _ (by simpa using ha)] at hfind
      intro x hx
      rcases List.mem_cons.mp hx with rfl | hm
      · exact ha
      · exact ih hids.2 hfind x hm

end JobsRouterLemmas

/-- C5: for every stored job, delete fails with HTTP 400 (and therefore
leaves the store untouched, the ok branch being the only one that yields a
new store) precisely when the status is running; in every other status the
deletion succeeds and the job is gone from every subsequent get and every
subsequent list result, whatever the filters and limit. -/
theorem delete_job_running_guard (store : List JobRec) (i : Nat) (job : JobRec)
    (hids : (store.map JobRec.id).Nodup) (hget : getJob store i = some job) :
    (deleteJob store i = .error ⟨400, "Cannot delete a running job"⟩ ↔
      job.status = "running") ∧
    (job.status ≠ "running" →
      ∃ store2, deleteJob store i = .ok store2 ∧
        getJob store2 i = none ∧
        ∀ jobType statusF limit, job ∉ listJobs store2 jobType statusF limit) := by
  have hfind : store.find? (fun j => j.id == i) = some job := hget
  have hjid : job.id = i := by
    have := List.find?_some hfind
    simpa using this
  constructor
  · unfold deleteJob
    rw [hfind]
    by_cases hs : job.status = "running"
    · simp [hs]
    · have hb : (job.status == "running") = false := by simpa using hs
      simp [hb, hs]
  · intro hs
    have hb : (job.status == "running") = false := by simpa using hs
    refine ⟨store.eraseP (fun j => j.id == i), ?_, ?_, ?_⟩
    · unfold deleteJob
      rw [hfind]
      simp [hb]
    · unfold getJob
      rw [List.find?_eq_none]
      intro x hx
      simpa using eraseP_id_ne hids hfind x hx
    · intro jobType statusF limit hmem
      exact eraseP_id_ne hids hfind job (mem_listJobs hmem) hjid

/-- Witness for C5: a two-row store where job 1 is running (so its deletion
is refused) and job 2 is completed (so its deletion succeeds and the row
disappears). -/
theorem delete_job_running_guard_witness :
    ((List.map JobRec.id [mkJob 1 "topic_research" 4 10,
        { mkJob 2 "topic_ingestion" 5 11 with status := "completed" }]).Nodup ∧
     getJob [mkJob 1 "topic_research" 4 10,
        { mkJob 2 "topic_ingestion" 5 11 with status := "completed" }] 2 =
       some { mkJob 2 "topic_ingestion" 5 11 with status := "completed" } ∧
     JobRec.status { mkJob 2 "topic_ingestion" 5 11 with
        status := "completed" } ≠ "running") ∧
    (deleteJob [mkJob 1 "topic_research" 4 10,
        { mkJob 2 "topic_ingestion" 5 11 with status := "completed" }] 2 =
          .error ⟨400, "Cannot delete a running job"⟩ ↔
      JobRec.status { mkJob 2 "topic_ingestion" 5 11 with
        status := "completed" } = "running") ∧
    (∃ store2, deleteJob [mkJob 1 "topic_research" 4 10,
        { mkJob 2 "topic_ingestion" 5 11 with status := "completed" }] 2 =
          .ok store2 ∧
      getJob store2 2 = none ∧
      ∀ jobType statusF limit,
        ({ mkJob 2 "topic_ingestion" 5 11 with status := "completed" } : JobRec)
          ∉ listJobs store2 jobType statusF limit) := by
  have h := delete_job_running_guard
    [mkJob 1 "topic_research" 4 10,
      { mkJob 2 "topic_ingestion" 5 11 with status := "completed" }] 2
    { mkJob 2 "topic_ingestion" 5 11 with status := "completed" }
    (by decide) (by decide)
  exact ⟨⟨by decide, by decide, by decide⟩, h.1, h.2 (by decide)⟩

/-! JobTracker and the notification payload. -/

/-- Arguments of JobTracker.update_job (job_tracker.py, lines 17-27): every
field is optional; message is only forwarded to the notification payload. -/
structure UpdateArgs where
  status : Option String := none
  progress : Option Int := none
  processed_items : Option Nat := none
  created_items : Option Nat := none
  error_message : Option String := none
  result : Option JobResultPayload := none
  message : Option String := none
deriving DecidableEq, Repr

/-- Update arguments with every optional field equal to None. -/
def UpdateArgs.noneArgs : UpdateArgs := {}

/-- Field overwrites of update_job (job_tracker.py, lines 44-66): each given
field replaces the stored one. -/
def applyUpdateFields (job : JobRec) (a : UpdateArgs) : JobRec :=
  let job := match a.status with
    | some s => { job with status := s } | none => job
  let job := match a.progress with
    | some p => { job with progress := p } | none => job
  let job := match a.processed_items with
    | some n => { job with processed_items := n } | none => job
  let job := match a.created_items with
    | some n => { job with created_items := n } | none => job
  let job := match a.error_message with
    | some e => { job with error_message := some e } | none => job
  match a.result with
    | some r => { job with result := some r } | none => job

/-- Flag computed by the sequence of ifs in update_job (job_tracker.py,
lines 42-66): true when at least one real field argument is given; the
message argument does not count. -/
def anyFieldGiven (a : UpdateArgs) : Bool :=
  a.status.isSome || a.progress.isSome || a.processed_items.isSome ||
    a.created_items.isSome || a.error_message.isSome || a.result.isSome

/-- Data dict built by send_job_progress (websocket_manager.py, lines
146-159): message, error and result are included only when truthy — for the
two strings, present and non-empty; the result payload dicts built by the
runners are never empty, so presence suffices there. -/
structure UpdateData where
  status : String
  progress : Int
  total_items : Nat
  processed_items : Nat
  created_items : Nat
  message : Option String
  error : Option String
  result : Option JobResultPayload
deriving DecidableEq, Repr

/-- Construction of the update payload from the refreshed job row
(job_tracker.py, lines 74-84 feeding websocket_manager.py send_job_progress). -/
def sendJobProgressData (job : JobRec) (message : Option String) : UpdateData :=
  { status := job.status, progress := job.progress,
    total_items := job.total_items, processed_items := job.processed_items,
    created_items := job.created_items,
    message := match message with
      | some m => if m = "" then none else some m
      | none => none,
    error := match job.error_message with
      | some e => if e = "" then none else some e
      | none => none,
    result := job.result }

/-- JobTracker.update_job (job_tracker.py, lines 16-86): overwrite the given
fields; when at least one was given, commit, refresh and push a WebSocket
update through the manager (send failures per connection are handled inside
send_job_update; a failure of the whole send is caught and logged).  Returns
the job row, whether a commit happened, the registry state after the send,
and the connections the update was delivered to. -/
def updateJob (job : JobRec) (a : UpdateArgs) (reg : CMState)
    (fails : Conn → Bool) : JobRec × Bool × CMState × List Conn :=
  if anyFieldGiven a then
    let job2 := applyUpdateFields job a
    let r := reg.sendJobUpdate fails job2.id
    (job2, true, r.state, r.delivered)
  else
    (job, false, reg, [])

/-- C9: calling the job tracker update with every optional field argument
equal to None is a complete no-op: the job row is unchanged, no commit or
refresh happens, the registry is untouched and nothing is delivered to any
connection.  (The message argument alone does not count as a field: the
updated flag in the source ignores it.) -/
theorem update_job_noop (job : JobRec) (reg : CMState) (fails : Conn → Bool) :
    updateJob job UpdateArgs.noneArgs reg fails = (job, false, reg, []) := rfl

/-! Topic ingestion service. -/

/-- One Tavily search result dict: the loop reads result.get("url") or
result.get("link") (merged into one optional canonical url here) and
result.get("title"). -/
structure SearchItem where
  url : Option String
  title : Option String
deriving DecidableEq, Repr

/-- Outcomes of the per-item external calls inside the ingestion loop
(topic_ingestion_service.py, lines 96-150): the duplicate query, the content
fetch (after its retry wrapper), the LLM processing and the transactional
persistence of the new article.  An error value is the caught exception's
string. -/
structure ItemWorld where
  dup : String → Except String Bool
  fetch : String → Except String String
  llm : String → Except String Unit
  persist : String → Except String Unit

/-- Accumulators of the ingestion loop, plus the urls of articles committed
earlier in the same run (visible to the duplicate query of later items). -/
structure LoopState where
  articles_processed : Nat
  articles_created : Nat
  articles_updated : Nat
  errors : List String
  createdUrls : List String
deriving DecidableEq, Repr

/-- One iteration of the ingestion loop (topic_ingestion_service.py, lines
96-150): count the item, skip without url, treat a stored duplicate as
updated, skip content shorter than 200 characters, otherwise process and
persist; any exception of the per-item body is caught and appended to the
error list as "url: exc". -/
def stepItem (w : ItemWorld) (st : LoopState) (it : SearchItem) : LoopState :=
  let st := { st with articles_processed := st.articles_processed + 1 }
  match it.url with
  | none => { st with errors := st.errors ++ ["Result missing URL; skipped"] }
  | some u =>
    match w.dup u with
    | .error e => { st with errors := st.errors ++ [u ++ ": " ++ e] }
    | .ok d =>
      if d = true ∨ u ∈ st.createdUrls then
        { st with articles_updated := st.articles_updated + 1 }
      else
        match w.fetch u with
        | .error e => { st with errors := st.errors ++ [u ++ ": " ++ e] }
        | .ok content =>
          if content.length < 200 then
            { st with errors :=
                st.errors ++ ["Content too short for " ++ u ++ "; skipped"] }
          else
            match w.llm u with
            | .error e => { st with errors := st.errors ++ [u ++ ": " ++ e] }
            | .ok _ =>
              match w.persist u with
              | .error e => { st with errors := st.errors ++ [u ++ ": " ++ e] }
              | .ok _ =>
                { st with
                  articles_created := st.articles_created + 1,
                  createdUrls := st.createdUrls ++ [u] }

/-- Environment of one ingest_topic call: whether TAVILY_API_KEY is set, the
outcome of the web search (after its retry wrapper), and the per-item
oracles. -/
structure IngestWorld where
  apiKeyConfigured : Bool
  search : Except String (List SearchItem)
  item : ItemWorld

/-- TopicIngestionService.ingest_topic (topic_ingestion_service.py, lines
75-171): raises ValueError when the key is missing — the only exception that
escapes, every other failure being converted into a response — returns a
no-results response when the search yields nothing, runs the per-item loop
otherwise, and turns an exception of the search itself into a failure
response carrying that exception in the error list. -/
def ingestTopic (w : IngestWorld) : Except String IngestResponse :=
  if !w.apiKeyConfigured then .error "TAVILY_API_KEY is not configured"
  else
    match w.search with
    | .error e =>
      .ok { success := false, message := "Topic ingestion failed",
            articles_processed := 0, articles_created := 0,
            articles_updated := 0, errors := [e] }
    | .ok items =>
      if items.isEmpty then
        .ok { success := false, message := "No search results found",
              articles_processed := 0, articles_created := 0,
              articles_updated := 0, errors := ["Search returned no results"] }
      else
        let st := items.foldl (stepItem w.item) ⟨0, 0, 0, [], []⟩
        .ok { success := decide (st.articles_created > 0 ∨ st.articles_updated > 0),
              message := "Processed " ++ toString st.articles_processed ++
                " results: " ++ toString st.articles_created ++ " created, " ++
                toString st.articles_updated ++ " skipped as existing",
              articles_processed := st.articles_processed,
              articles_created := st.articles_created,
              articles_updated := st.articles_updated,
              errors := st.errors }

/-- Background task run_topic_ingestion_job (ingestion.py, lines 169-224):
create the pending row (done by the submitting endpoint), commit the running
transition with started_at and progress 0, call the service, then commit
either the completed row with progress 100, the counters and the result
dict, or — when the service call raised — the failed row with the
exception's message.  The returned list is the sequence of committed
snapshots of the row. -/
def runTopicIngestionJob (w : IngestWorld) (i : Nat) (maxResults : Nat)
    (t : Nat) : List JobRec :=
  let job0 := mkJob i "topic_ingestion" maxResults t
  let j1 := { job0 with
              status := "running", started_at := some t, progress := 0 }
  match ingestTopic w with
  | .error e =>
    [job0, j1, { j1 with
                 status := "failed", completed_at := some t,
                 error_message := some e }]
  | .ok resp =>
    [job0, j1, { j1 with
                 status := "completed", completed_at := some t,
                 progress := 100,
                 processed_items := resp.articles_processed,
                 created_items := resp.articles_created,
                 result := some (.ingestion resp.success resp.message
                   resp.articles_processed resp.articles_created
                   resp.articles_updated resp.errors) }]

/-! Research service and its background task. -/

/-- Dict returned by the _search_web branch (research_service.py, lines
105-120). -/
structure WebBranch where
  articles_created : Nat
  errors : List String
deriving DecidableEq, Repr

/-- Dict returned by the _search_youtube branch (research_service.py, lines
122-167). -/
structure YtBranch where
  videos_created : Nat
  errors : List String
deriving DecidableEq, Repr

/-- Outcomes of the two branches gathered with return_exceptions=True
(research_service.py, lines 58-66): each is either its result dict or the
exception it raised. -/
structure ResearchEnv where
  webOutcome : Except String WebBranch
  ytOutcome : Except String YtBranch

/-- Dict returned by ResearchService.research_topic (research_service.py,
lines 88-103). -/
structure ResearchResultD where
  success : Bool
  query : String
  web_articles_created : Nat
  youtube_videos_created : Nat
  total_articles_created : Nat
  errors : List String
deriving DecidableEq, Repr

/-- ResearchService.research_topic (research_service.py, lines 25-103): the
two branches run concurrently with their exceptions captured, a failed
branch contributes zero creations and one error line, and the aggregate is
always returned — this function never raises. -/
def researchTopic (env : ResearchEnv) (query : String) : ResearchResultD :=
  let webPair := match env.webOutcome with
    | .error e => (0, ["Web search failed: " ++ e])
    | .ok r => (r.articles_created, r.errors)
  let ytPair := match env.ytOutcome with
    | .error e => (0, ["YouTube search failed: " ++ e])
    | .ok r => (r.videos_created, r.errors)
  let total := webPair.1 + ytPair.1
  { success := decide (total > 0), query := query,
    web_articles_created := webPair.1,
    youtube_videos_created := ytPair.1,
    total_articles_created := total,
    errors := webPair.2 ++ ytPair.2 }

/-- Point at which an exception escapes the post-processing block of
run_research_job (research.py, lines 121-154): before the 85% commit (the
embeddings query or generation), between the 85% and 95% commits (the
connection computation), or not at all.  Either failure is caught at line
152 and only appends to the error list. -/
inductive PostOutcome where
  | earlyFail (e : String)
  | midFail (e : String)
  | ok
deriving DecidableEq, Repr

/-- Environment of the post-processing stage: where it fails, if anywhere,
and how many articles lacked embeddings (the length of article_ids,
research.py line 134; zero when none did). -/
structure PostWorld where
  outcome : PostOutcome
  embeddingsGenerated : Nat
deriving DecidableEq, Repr

/-- Environment of one run_research_job execution.  The escape field is an
exception raised by the awaited service call itself (for example task
cancellation) — the service function as written never raises, but the
runner's except branch exists for exactly such escapes; none in normal
operation. -/
structure ResearchWorld where
  env : ResearchEnv
  post : PostWorld
  escape : Option String

/-- Background task run_research_job (research.py, lines 80-189): commit the
running transition (started_at, progress 0), run the research, commit
progress 70, then — only when articles were created — run the post-processing
block committing progress 85 and 95 around its stages with its failures
appended to the error list, and finally commit the completed row with
progress 100, both counters set to total_articles_created and the result
dict.  An exception escaping the service call itself leads to the failed
row instead.  The returned list is the sequence of committed snapshots. -/
def runResearchJob (w : ResearchWorld) (i : Nat) (query : String)
    (maxWeb maxYt : Nat) (t : Nat) : List JobRec :=
  let job0 := mkJob i "topic_research" (maxWeb + maxYt) t
  let j1 := { job0 with
              status := "running", started_at := some t, progress := 0 }
  match w.escape with
  | some e =>
    [job0, j1, { j1 with
                 status := "failed", completed_at := some t,
                 error_message := some e }]
  | none =>
    let res := researchTopic w.env query
    let j2 := { j1 with progress := 70 }
    let completedSnap := fun (j : JobRec) (embeds conns : Nat)
        (errs : List String) =>
      { j with
        status := "completed", completed_at := some t, progress := 100,
        processed_items := res.total_articles_created,
        created_items := res.total_articles_created,
        result := some (.research res.success res.query
          res.web_articles_created res.youtube_videos_created
          res.total_articles_created embeds conns errs) }
    if res.total_articles_created > 0 then
      match w.post.outcome with
      | .earlyFail e =>
        [job0, j1, j2,
         completedSnap j2 0 0 (res.errors ++ ["Post-processing error: " ++ e])]
      | .midFail e =>
        let j3 := { j2 with progress := 85 }
        [job0, j1, j2, j3,
         completedSnap j3 w.post.embeddingsGenerated 0
           (res.errors ++ ["Post-processing error: " ++ e])]
      | .ok =>
        let j3 := { j2 with progress := 85 }
        let j4 := { j3 with progress := 95 }
        [job0, j1, j2, j3, j4,
         completedSnap j4 w.post.embeddingsGenerated
           (w.post.embeddingsGenerated * 2) res.errors]
    else
      [job0, j1, j2, completedSnap j2 0 0 res.errors]

/-- Allowed evolution of the status field between two consecutive committed
snapshots of one job: unchanged, the pending-to-running start (which also
sets started_at and resets progress to 0), or the running-to-terminal
finish.  There is no step out of completed or failed other than identity. -/
def jobStep (a b : JobRec) : Prop :=
  a.status = b.status ∨
  (a.status = "pending" ∧ b.status = "running" ∧ b.started_at.isSome ∧
    b.progress = 0) ∨
  (a.status = "running" ∧ (b.status = "completed" ∨ b.status = "failed"))

lemma jobStep_same {a b : JobRec} (h : a.status = b.status) : jobStep a b :=
  Or.inl h

lemma jobStep_start {a b : JobRec} (ha : a.status = "pending")
    (hb : b.status = "running") (hs : b.started_at.isSome = true)
    (hp : b.progress = 0) : jobStep a b :=
  Or.inr (Or.inl ⟨ha, hb, hs, hp⟩)

lemma jobStep_finish {a b : JobRec} (ha : a.status = "running")
    (hb : b.status = "completed" ∨ b.status = "failed") : jobStep a b :=
  Or.inr (Or.inr ⟨ha, hb⟩)

/-- C1: over every environment, the committed snapshots of both background
tasks start at pending and evolve only along
pending → running → (completed or failed): consecutive snapshots are related
by jobStep, so the only exit from pending is the running transition (which
sets started_at and progress 0), the only exits from running are the two
terminal statuses, and no snapshot ever changes the status of a job whose
status is already completed or failed. -/
theorem job_status_transitions (wi : IngestWorld) (wr : ResearchWorld)
    (i1 i2 : Nat) (q : String) (m mw my t1 t2 : Nat) :
    ((runTopicIngestionJob wi i1 m t1).head?.map JobRec.status =
        some "pending" ∧
      List.Chain' jobStep (runTopicIngestionJob wi i1 m t1)) ∧
    ((runResearchJob wr i2 q mw my t2).head?.map JobRec.status =
        some "pending" ∧
      List.Chain' jobStep (runResearchJob wr i2 q mw my t2)) := by
  constructor
  · cases hI : ingestTopic wi with
    | error e =>
      refine ⟨by simp [runTopicIngestionJob, hI, mkJob], ?_⟩
      simp only [runTopicIngestionJob, hI]
      exact List.chain'_cons.mpr ⟨jobStep_start rfl rfl rfl rfl,
        List.chain'_cons.mpr ⟨jobStep_finish rfl (Or.inr rfl),
          List.chain'_singleton _⟩⟩
    | ok resp =>
      refine ⟨by simp [runTopicIngestionJob, hI, mkJob], ?_⟩
      simp only [runTopicIngestionJob, hI]
      exact List.chain'_cons.mpr ⟨jobStep_start rfl rfl rfl rfl,
        List.chain'_cons.mpr ⟨jobStep_finish rfl (Or.inl rfl),
          List.chain'_singleton _⟩⟩
  · cases hE : wr.escape with
    | some e =>
      refine ⟨by simp [runResearchJob, hE, mkJob], ?_⟩
      simp only [runResearchJob, hE]
      exact List.chain'_cons.mpr ⟨jobStep_start rfl rfl rfl rfl,
        List.chain'_cons.mpr ⟨jobStep_finish rfl (Or.inr rfl),
          List.chain'_singleton _⟩⟩
    | none =>
      by_cases hT : (researchTopic wr.env q).total_articles_created > 0
      · cases hP : wr.post.outcome with
        | earlyFail e =>
          refine ⟨by simp [runResearchJob, hE, hP, hT, mkJob], ?_⟩
          simp only [runResearchJob, hE, hP, if_pos hT]
          exact List.chain'_cons.mpr ⟨jobStep_start rfl rfl rfl rfl,
            List.chain'_cons.mpr ⟨jobStep_same rfl,
              List.chain'_cons.mpr ⟨jobStep_finish rfl (Or.inl rfl),
                List.chain'_singleton _⟩⟩⟩
        | midFail e =>
          refine ⟨by simp [runResearchJob, hE, hP, hT, mkJob], ?_⟩
          simp only [runResearchJob, hE, hP, if_pos hT]
          exact List.chain'_cons.mpr ⟨jobStep_start rfl rfl rfl rfl,
            List.chain'_cons.mpr ⟨jobStep_same rfl,
              List.chain'_cons.mpr ⟨jobStep_same rfl,
                List.chain'_cons.mpr ⟨jobStep_finish rfl (Or.inl rfl),
                  List.chain'_singleton _⟩⟩⟩⟩
        | ok =>
          refine ⟨by simp [runResearchJob, hE, hP, hT, mkJob], ?_⟩
          simp only [runResearchJob, hE, hP, if_pos hT]
          exact List.chain'_cons.mpr ⟨jobStep_start rfl rfl rfl rfl,
            List.chain'_cons.mpr ⟨jobStep_same rfl,
              List.chain'_cons.mpr ⟨jobStep_same rfl,
                List.chain'_cons.mpr ⟨jobStep_same rfl,
                  List.chain'_cons.mpr ⟨jobStep_finish rfl (Or.inl rfl),
                    List.chain'_singleton _⟩⟩⟩⟩⟩
      · refine ⟨by simp [runResearchJob, hE, hT, mkJob], ?_⟩
        simp only [runResearchJob, hE, if_neg hT]
        exact List.chain'_cons.mpr ⟨jobStep_start rfl rfl rfl rfl,
          List.chain'_cons.mpr ⟨jobStep_same rfl,
            List.chain'_cons.mpr ⟨jobStep_finish rfl (Or.inl rfl),
              List.chain'_singleton _⟩⟩⟩

/-- C6: over every environment, every committed progress value of both
background tasks lies within [0, 100] and the sequence of progress values is
non-decreasing — the research pipeline writes 0, then 70, then optionally 85
and 95, then 100 on completion, while the ingestion pipeline writes 0 and
then 100 on completion; a failed run keeps the last committed value. -/
theorem progress_bounds_monotone (wi : IngestWorld) (wr : ResearchWorld)
    (i1 i2 : Nat) (q : String) (m mw my t1 t2 : Nat) :
    ((∀ p ∈ (runTopicIngestionJob wi i1 m t1).map JobRec.progress,
        0 ≤ p ∧ p ≤ 100) ∧
      List.Chain' (· ≤ ·)
        ((runTopicIngestionJob wi i1 m t1).map JobRec.progress)) ∧
    ((∀ p ∈ (runResearchJob wr i2 q mw my t2).map JobRec.progress,
        0 ≤ p ∧ p ≤ 100) ∧
      List.Chain' (· ≤ ·)
        ((runResearchJob wr i2 q mw my t2).map JobRec.progress)) := by
  constructor
  · cases hI : ingestTopic wi with
    | error e =>
      have hm : (runTopicIngestionJob wi i1 m t1).map JobRec.progress =
          [0, 0, 0] := by
        simp [runTopicIngestionJob, hI, mkJob]
      rw [hm]
      exact ⟨by decide, by norm_num [List.chain'_cons]⟩
    | ok resp =>
      have hm : (runTopicIngestionJob wi i1 m t1).map JobRec.progress =
          [0, 0, 100] := by
        simp [runTopicIngestionJob, hI, mkJob]
      rw [hm]
      exact ⟨by decide, by norm_num [List.chain'_cons]⟩
  · cases hE : wr.escape with
    | some e =>
      have hm : (runResearchJob wr i2 q mw my t2).map JobRec.progress =
          [0, 0, 0] := by
        simp [runResearchJob, hE, mkJob]
      rw [hm]
      exact ⟨by decide, by norm_num [List.chain'_cons]⟩
    | none =>
      by_cases hT : (researchTopic wr.env q).total_articles_created > 0
      · cases hP : wr.post.outcome with
        | earlyFail e =>
          have hm : (runResearchJob wr i2 q mw my t2).map JobRec.progress =
              [0, 0, 70, 100] := by
            simp [runResearchJob, hE, hP, hT, mkJob]
          rw [hm]
          exact ⟨by decide, by norm_num [List.chain'_cons]⟩
        | midFail e =>
          have hm : (runResearchJob wr i2 q mw my t2).map JobRec.progress =
              [0, 0, 70, 85, 100] := by
            simp [runResearchJob, hE, hP, hT, mkJob]
          rw [hm]
          exact ⟨by decide, by norm_num [List.chain'_cons]⟩
        | ok =>
          have hm : (runResearchJob wr i2 q mw my t2).map JobRec.progress =
              [0, 0, 70, 85, 95, 100] := by
            simp [runResearchJob, hE, hP, hT, mkJob]
          rw [hm]
          exact ⟨by decide, by norm_num [List.chain'_cons]⟩
      · have hm : (runResearchJob wr i2 q mw my t2).map JobRec.progress =
            [0, 0, 70, 100] := by
          simp [runResearchJob, hE, hT, mkJob]
        rw [hm]
        exact ⟨by decide, by norm_num [List.chain'_cons]⟩

/-- C3 counterexample: a topic-ingestion job whose acquisition produces no
results from any source is nevertheless marked completed.  With the API key
configured and the search returning an empty result list, ingest_topic
returns a failure response instead of raising, and the background task
commits status completed with a result dict (success false) and no
error_message — contradicting the claim that such a job ends failed with a
non-empty error_message and result unset.  The research runner behaves the
same when both gathered branches raise: the exceptions are captured, zero
articles are created, and the job is still marked completed. -/
theorem acquisition_no_results_marked_completed :
    ((runTopicIngestionJob
        ⟨true, .ok [], ⟨fun _ => .ok false, fun _ => .ok "",
          fun _ => .ok (), fun _ => .ok ()⟩⟩ 1 5 0).getLast?).map
      (fun j => (j.status, j.error_message, j.result.isSome)) =
      some ("completed", none, true) ∧
    ((runResearchJob
        ⟨⟨.error "web search down", .error "youtube search down"⟩,
          ⟨.ok, 0⟩, none⟩ 2 "q" 5 3 0).getLast?).map
      (fun j => (j.status, j.error_message, j.result.isSome)) =
      some ("completed", none, true) := by
  constructor <;> rfl

/-- C3 amended: the asynchronous topic-ingestion task leaves a job failed,
with a non-empty error_message and result unset, exactly when the service
call raises — which ingest_topic does only for the missing-credential check
before any work.  When the credential is configured, the job always ends
completed with a result dict: an acquisition that returns no results (or a
search whose exception is handled inside the service) yields a completed job
whose result records success false and the corresponding error, not a failed
job. -/
theorem acquisition_failure_terminal_status (w : IngestWorld)
    (i maxR t : Nat) :
    (w.apiKeyConfigured = false →
      ((runTopicIngestionJob w i maxR t).getLast?).map
          (fun j => (j.status, j.error_message, j.result)) =
        some ("failed", some "TAVILY_API_KEY is not configured", none) ∧
      "TAVILY_API_KEY is not configured" ≠ "") ∧
    (w.apiKeyConfigured = true →
      ∃ resp, ingestTopic w = .ok resp ∧
        ((runTopicIngestionJob w i maxR t).getLast?).map JobRec.status =
          some "completed" ∧
        (w.search = .ok [] →
          resp.success = false ∧ resp.errors = ["Search returned no results"]) ∧
        (∀ e, w.search = .error e →
          resp.success = false ∧ resp.errors = [e])) := by
  constructor
  · intro hA
    have hI : ingestTopic w = .error "TAVILY_API_KEY is not configured" := by
      unfold ingestTopic
      rw [hA]
      rfl
    refine ⟨?_, by decide⟩
    simp [runTopicIngestionJob, hI, mkJob]
  · intro hA
    have hok : ∃ resp, ingestTopic w = .ok resp := by
      rcases hS : w.search with e | items
      · exact ⟨_, by unfold ingestTopic; rw [hA, hS]; rfl⟩
      · rcases items with _ | ⟨a, rest⟩
        · exact ⟨_, by unfold ingestTopic; rw [hA, hS]; rfl⟩
        · exact ⟨_, by unfold ingestTopic; rw [hA, hS]; rfl⟩
    obtain ⟨resp, hI⟩ := hok
    refine ⟨resp, hI, ?_, ?_, ?_⟩
    · simp [runTopicIngestionJob, hI]
    · intro hS
      have : ingestTopic w = .ok
          { success := false, message := "No search results found",
            articles_processed := 0, articles_created := 0,
            articles_updated := 0,
            errors := ["Search returned no results"] } := by
        unfold ingestTopic
        rw [hA, hS]
        rfl
      rw [this] at hI
      obtain rfl : _ = resp := by simpa using hI
      exact ⟨rfl, rfl⟩
    · intro e hS
      have : ingestTopic w = .ok
          { success := false, message := "Topic ingestion failed",
            articles_processed := 0, articles_created := 0,
            articles_updated := 0, errors := [e] } := by
        unfold ingestTopic
        rw [hA, hS]
        rfl
      rw [this] at hI
      obtain rfl : _ = resp := by simpa using hI
      exact ⟨rfl, rfl⟩

/-- Witness for the amended C3: a run without the API key ends failed with
the credential message, and a run with the key but an empty search result
ends completed with a success-false result. -/
theorem acquisition_failure_terminal_status_witness :
    (IngestWorld.apiKeyConfigured ⟨false, .ok [], ⟨fun _ => .ok false,
        fun _ => .ok "", fun _ => .ok (), fun _ => .ok ()⟩⟩ = false ∧
      ((runTopicIngestionJob ⟨false, .ok [], ⟨fun _ => .ok false,
          fun _ => .ok "", fun _ => .ok (), fun _ => .ok ()⟩⟩ 1 5 0).getLast?).map
          (fun j => (j.status, j.error_message, j.result)) =
        some ("failed", some "TAVILY_API_KEY is not configured", none) ∧
      "TAVILY_API_KEY is not configured" ≠ "") ∧
    (IngestWorld.apiKeyConfigured ⟨true, .ok [], ⟨fun _ => .ok false,
        fun _ => .ok "", fun _ => .ok (), fun _ => .ok ()⟩⟩ = true ∧
      ∃ resp, ingestTopic ⟨true, .ok [], ⟨fun _ => .ok false,
          fun _ => .ok "", fun _ => .ok (), fun _ => .ok ()⟩⟩ = .ok resp ∧
        ((runTopicIngestionJob ⟨true, .ok [], ⟨fun _ => .ok false,
            fun _ => .ok "", fun _ => .ok (), fun _ => .ok ()⟩⟩ 1 5
          0).getLast?).map JobRec.status = some "completed" ∧
        (IngestWorld.search ⟨true, .ok [], ⟨fun _ => .ok false,
            fun _ => .ok "", fun _ => .ok (), fun _ => .ok ()⟩⟩ = .ok [] →
          resp.success = false ∧
          resp.errors = ["Search returned no results"]) ∧
        (∀ e, IngestWorld.search ⟨true, .ok [], ⟨fun _ => .ok false,
            fun _ => .ok "", fun _ => .ok (), fun _ => .ok ()⟩⟩ = .error e →
          resp.success = false ∧ resp.errors = [e])) :=
  ⟨⟨rfl, (acquisition_failure_terminal_status ⟨false, .ok [],
      ⟨fun _ => .ok false, fun _ => .ok "", fun _ => .ok (),
        fun _ => .ok ()⟩⟩ 1 5 0).1 rfl⟩,
   ⟨rfl, (acquisition_failure_terminal_status ⟨true, .ok [],
      ⟨fun _ => .ok false, fun _ => .ok "", fun _ => .ok (),
        fun _ => .ok ()⟩⟩ 1 5 0).2 rfl⟩⟩

/-- Resolution of the per-item body for one url in a given loop state: some
message exactly when the body raises (duplicate query, fetch, LLM call or
persistence), none when it completes or takes one of the non-raising skip
paths. -/
def itemRaises (w : ItemWorld) (st : LoopState) (u : String) : Option String :=
  match w.dup u with
  | .error e => some e
  | .ok d =>
    if d = true ∨ u ∈ st.createdUrls then none
    else match w.fetch u with
      | .error e => some e
      | .ok content =>
        if content.length < 200 then none
        else match w.llm u with
          | .error e => some e
          | .ok _ =>
            match w.persist u with
            | .error e => some e
            | .ok _ => none

/-- Error list carried by the result payload of a terminal job. -/
def resultErrors (j : JobRec) : List String :=
  match j.result with
  | some (.ingestion _ _ _ _ _ errs) => errs
  | some (.research _ _ _ _ _ _ _ errs) => errs
  | none => []

lemma stepItem_processed (w : ItemWorld) (st : LoopState) (it : SearchItem) :
    (stepItem w st it).articles_processed = st.articles_processed + 1 := by
  unfold stepItem
  dsimp only
  rcases hu : it.url with _ | u
  · rfl
  · dsimp only
    rcases hd : w.dup u with e1 | d
    · rfl
    · by_cases hc : d = true ∨ u ∈ st.createdUrls
      · simp only [hd, if_pos hc]
      · simp only [hd, if_neg hc]
        rcases hf : w.fetch u with e2 | content
        · simp only [hf]
        · simp only [hf]
          by_cases hlen : content.length < 200
          · simp only [if_pos hlen]
          · simp only [if_neg hlen]
            rcases hl : w.llm u with e3 | x
            · simp only [hl]
            · simp only [hl]
              rcases hp : w.persist u with e4 | y <;> simp only [hp]

lemma foldl_stepItem_processed (w : ItemWorld) (items : List SearchItem)
    (st : LoopState) :
    (items.foldl (stepItem w) st).articles_processed =
      st.articles_processed + items.length := by
  induction items generalizing st with
  | nil => simp
  | cons it rest ih =>
    rw [List.foldl_cons, ih, stepItem_processed, List.length_cons]
    omega

lemma stepItem_raises {w : ItemWorld} {st : LoopState} {it : SearchItem}
    {u : String} {e : String} (hu : it.url = some u)
    (he : itemRaises w st u = some e) :
    stepItem w st it =
      { st with articles_processed := st.articles_processed + 1,
                errors := st.errors ++ [u ++ ": " ++ e] } := by
  unfold stepItem itemRaises at *
  simp only [hu]
  rcases hd : w.dup u with e1 | d <;> simp only [hd] at he ⊢
  · obtain rfl : e1 = e := by simpa using he
    rfl
  · by_cases hc : d = true ∨ u ∈ st.createdUrls
    · rw [if_pos hc] at he
      exact absurd he (by simp)
    · rw [if_neg hc] at he ⊢
      rcases hf : w.fetch u with e2 | content <;> simp only [hf] at he ⊢
      · obtain rfl : e2 = e := by simpa using he
        rfl
      · by_cases hlen : content.length < 200
        · rw [if_pos hlen] at he
          exact absurd he (by simp)
        · rw [if_neg hlen] at he ⊢
          rcases hl : w.llm u with e3 | x <;> simp only [hl] at he ⊢
          · obtain rfl : e3 = e := by simpa using he
            rfl
          · rcases hp : w.persist u with e4 | y <;> simp only [hp] at he ⊢
            · obtain rfl : e4 = e := by simpa using he
              rfl
            · exact absurd he (by simp)

/-- C4: the ingestion loop isolates per-item failures.  First, every item is
always processed: the counter after the loop is the initial counter plus the
number of candidates, whatever the per-item outcomes — no exception aborts
the loop.  Second, an item whose body raises (duplicate check, content
fetch, LLM processing or persistence) only appends one "url: exception"
entry to the error list, leaving every other accumulator unchanged.  Third,
the end-to-end scenario: five candidates where exactly item 3 throws during
content fetch leave the job completed with created_items 4 and exactly one
result error. -/
theorem per_item_failure_isolation :
    (∀ (w : ItemWorld) (items : List SearchItem) (st : LoopState),
      (items.foldl (stepItem w) st).articles_processed =
        st.articles_processed + items.length) ∧
    (∀ (w : ItemWorld) (st : LoopState) (it : SearchItem) (u e : String),
      it.url = some u → itemRaises w st u = some e →
      stepItem w st it =
        { st with articles_processed := st.articles_processed + 1,
                  errors := st.errors ++ [u ++ ": " ++ e] }) ∧
    (∀ (w : ItemWorld) (u1 u2 u3 u4 u5 c1 c2 c4 c5 e : String) (i t : Nat),
      [u1, u2, u3, u4, u5].Nodup →
      w.dup u1 = .ok false → w.dup u2 = .ok false → w.dup u3 = .ok false →
      w.dup u4 = .ok false → w.dup u5 = .ok false →
      w.fetch u1 = .ok c1 → ¬ c1.length < 200 →
      w.fetch u2 = .ok c2 → ¬ c2.length < 200 →
      w.fetch u3 = .error e →
      w.fetch u4 = .ok c4 → ¬ c4.length < 200 →
      w.fetch u5 = .ok c5 → ¬ c5.length < 200 →
      w.llm u1 = .ok () → w.llm u2 = .ok () → w.llm u4 = .ok () →
      w.llm u5 = .ok () →
      w.persist u1 = .ok () → w.persist u2 = .ok () → w.persist u4 = .ok () →
      w.persist u5 = .ok () →
      ((runTopicIngestionJob
          ⟨true, .ok [⟨some u1, none⟩, ⟨some u2, none⟩, ⟨some u3, none⟩,
            ⟨some u4, none⟩, ⟨some u5, none⟩], w⟩ i 5 t).getLast?).map
        (fun j => (j.status, j.created_items, (resultErrors j).length)) =
        some ("completed", 4, 1)) := by
  refine ⟨foldl_stepItem_processed, fun w st it u e hu he => stepItem_raises hu he, ?_⟩
  intro w u1 u2 u3 u4 u5 c1 c2 c4 c5 e i t hnd hd1 hd2 hd3 hd4 hd5
    hf1 hl1 hf2 hl2 hf3 hf4 hl4 hf5 hl5 hm1 hm2 hm4 hm5 hp1 hp2 hp4 hp5
  simp only [List.nodup_cons, List.mem_cons, List.mem_singleton,
    List.not_mem_nil, or_false, not_or] at hnd
  obtain ⟨⟨h12, h13, h14, h15⟩, ⟨h23, h24, h25⟩, ⟨h34, h35⟩, h45, -⟩ := hnd
  have s1 : stepItem w ⟨0, 0, 0, [], []⟩ ⟨some u1, none⟩ =
      ⟨1, 1, 0, [], [u1]⟩ := by
    simp [stepItem, hd1, hf1, hl1, hm1, hp1]
  have s2 : stepItem w ⟨1, 1, 0, [], [u1]⟩ ⟨some u2, none⟩ =
      ⟨2, 2, 0, [], [u1, u2]⟩ := by
    simp [stepItem, hd2, hf2, hl2, hm2, hp2, Ne.symm h12]
  have s3 : stepItem w ⟨2, 2, 0, [], [u1, u2]⟩ ⟨some u3, none⟩ =
      ⟨3, 2, 0, [u3 ++ ": " ++ e], [u1, u2]⟩ := by
    simp [stepItem, hd3, hf3, Ne.symm h13, Ne.symm h23]
  have s4 : stepItem w ⟨3, 2, 0, [u3 ++ ": " ++ e], [u1, u2]⟩
      ⟨some u4, none⟩ =
      ⟨4, 3, 0, [u3 ++ ": " ++ e], [u1, u2, u4]⟩ := by
    simp [stepItem, hd4, hf4, hl4, hm4, hp4, Ne.symm h14, Ne.symm h24]
  have s5 : stepItem w ⟨4, 3, 0, [u3 ++ ": " ++ e], [u1, u2, u4]⟩
      ⟨some u5, none⟩ =
      ⟨5, 4, 0, [u3 ++ ": " ++ e], [u1, u2, u4, u5]⟩ := by
    simp [stepItem, hd5, hf5, hl5, hm5, hp5, Ne.symm h15, Ne.symm h25,
      Ne.symm h45]
  have hfold : List.foldl (stepItem w) ⟨0, 0, 0, [], []⟩
      [⟨some u1, none⟩, ⟨some u2, none⟩, ⟨some u3, none⟩,
       ⟨some u4, none⟩, ⟨some u5, none⟩] =
      ⟨5, 4, 0, [u3 ++ ": " ++ e], [u1, u2, u4, u5]⟩ := by
    rw [List.foldl_cons, s1, List.foldl_cons, s2, List.foldl_cons, s3,
      List.foldl_cons, s4, List.foldl_cons, s5, List.foldl_nil]
  have hI : ∃ resp, ingestTopic ⟨true, .ok [⟨some u1, none⟩, ⟨some u2, none⟩,
      ⟨some u3, none⟩, ⟨some u4, none⟩, ⟨some u5, none⟩], w⟩ = .ok resp ∧
      resp.articles_processed = 5 ∧ resp.articles_created = 4 ∧
      resp.errors = [u3 ++ ": " ++ e] := by
    unfold ingestTopic
    dsimp only
    rw [hfold]
    exact ⟨_, rfl, rfl, rfl, rfl⟩
  obtain ⟨resp, hI, hcp, hcc, hce⟩ := hI
  simp [runTopicIngestionJob, hI, resultErrors, hcp, hcc, hce]


set_option maxRecDepth 8000

/-- Witness for C4: five concrete candidates with 200-character contents
where only the third fetch raises. -/
theorem per_item_failure_isolation_witness :
    ([String.mk (List.replicate 1 'a'), String.mk (List.replicate 2 'a'),
      String.mk (List.replicate 3 'a'), String.mk (List.replicate 4 'a'),
      String.mk (List.replicate 5 'a')].Nodup ∧
     ¬ (String.mk (List.replicate 200 'b')).length < 200) ∧
    ((runTopicIngestionJob
        ⟨true, .ok [⟨some (String.mk (List.replicate 1 'a')), none⟩,
          ⟨some (String.mk (List.replicate 2 'a')), none⟩,
          ⟨some (String.mk (List.replicate 3 'a')), none⟩,
          ⟨some (String.mk (List.replicate 4 'a')), none⟩,
          ⟨some (String.mk (List.replicate 5 'a')), none⟩],
          ⟨fun _ => .ok false,
           fun u => if u = String.mk (List.replicate 3 'a') then .error "boom"
             else .ok (String.mk (List.replicate 200 'b')),
           fun _ => .ok (), fun _ => .ok ()⟩⟩ 7 5 0).getLast?).map
      (fun j => (j.status, j.created_items, (resultErrors j).length)) =
      some ("completed", 4, 1) := by
  refine ⟨⟨by decide, by decide⟩, ?_⟩
  exact per_item_failure_isolation.2.2
    ⟨fun _ => .ok false,
     fun u => if u = String.mk (List.replicate 3 'a') then .error "boom"
       else .ok (String.mk (List.replicate 200 'b')),
     fun _ => .ok (), fun _ => .ok ()⟩
    (String.mk (List.replicate 1 'a')) (String.mk (List.replicate 2 'a'))
    (String.mk (List.replicate 3 'a')) (String.mk (List.replicate 4 'a'))
    (String.mk (List.replicate 5 'a'))
    (String.mk (List.replicate 200 'b')) (String.mk (List.replicate 200 'b'))
    (String.mk (List.replicate 200 'b')) (String.mk (List.replicate 200 'b'))
    "boom" 7 0
    (by decide) rfl rfl rfl rfl rfl
    rfl (by decide) rfl (by decide) rfl rfl (by decide) rfl (by decide)
    rfl rfl rfl rfl rfl rfl rfl rfl

/-! Connection computation (embeddings router). -/

/-- Row of the connections table relevant to the task: source and target
article ids and the stored similarity score (connection_type is the constant
"semantic"). -/
structure ConnRec where
  source_article_id : Nat
  target_article_id : Nat
  similarity_score : Rat
deriving DecidableEq, Repr

/-- Existence query of compute_connections_task (embeddings.py, lines
187-192): a connection between a and b in either direction. -/
def linkedEither (conns : List ConnRec) (a b : Nat) : Bool :=
  conns.any (fun c =>
    (c.source_article_id == a && c.target_article_id == b) ||
    (c.source_article_id == b && c.target_article_id == a))

/-- Ordered pairs produced by the nested loops
for i, emb1 in enumerate(data): for emb2 in data[i+1:]
(embeddings.py, lines 177-178): every earlier element with every later
element. -/
def pairsAfter : List Nat → List (Nat × Nat)
  | [] => []
  | a :: rest => rest.map (fun b => (a, b)) ++ pairsAfter rest

/-- compute_connections_task (embeddings.py, lines 147-205), with the
numeric cosine-similarity kernel (numpy dot and norms over the parsed float
vectors) abstracted into the scoring function sim: for every ordered pair of
distinct embedded article ids, when sim reaches the threshold (inclusive
comparison, line 185) and no connection exists in either direction among the
committed rows and the rows added earlier in this run (the session query
sees pending adds), a new connection is added.  Returns the rows added by
the run; the table afterwards is existing ++ the result. -/
def computeConnectionsTask (sim : Nat → Nat → Rat) (threshold : Rat)
    (ids : List Nat) (existing : List ConnRec) : List ConnRec :=
  (pairsAfter ids).foldl (fun acc p =>
    if sim p.1 p.2 ≥ threshold then
      if linkedEither (existing ++ acc) p.1 p.2 then acc
      else acc ++ [⟨p.1, p.2, sim p.1 p.2⟩]
    else acc) []

/-- Unordered key of a pair of article ids. -/
def pairKey (a b : Nat) : Nat × Nat := (min a b, max a b)

/-- Unordered key of a stored connection. -/
def connKey (c : ConnRec) : Nat × Nat :=
  pairKey c.source_article_id c.target_article_id

section ConnectionLemmas

lemma pairKey_eq_iff {a b u v : Nat} :
    pairKey a b = pairKey u v ↔ (a = u ∧ b = v) ∨ (a = v ∧ b = u) := by
  simp only [pairKey, Prod.mk.injEq]
  omega

lemma linkedEither_iff (conns : List ConnRec) (a b : Nat) :
    linkedEither conns a b = true ↔
      ∃ c ∈ conns, connKey c = pairKey a b := by
  simp only [linkedEither, List.any_eq_true, Bool.or_eq_true,
    Bool.and_eq_true, beq_iff_eq, connKey, pairKey_eq_iff]

lemma linkedEither_append (l1 l2 : List ConnRec) (a b : Nat) :
    linkedEither (l1 ++ l2) a b = (linkedEither l1 a b || linkedEither l2 a b) := by
  simp [linkedEither, List.any_append]

lemma pairsAfter_mem {l : List Nat} {p : Nat × Nat} (h : p ∈ pairsAfter l) :
    p.1 ∈ l ∧ p.2 ∈ l := by
  induction l with
  | nil => simp [pairsAfter] at h
  | cons a rest ih =>
    rw [pairsAfter] at h
    rcases List.mem_append.mp h with hm | hm
    · obtain ⟨b, hb, rfl⟩ := List.mem_map.mp hm
      exact ⟨List.mem_cons_self _ _, List.mem_cons_of_mem _ hb⟩
    · exact ⟨List.mem_cons_of_mem _ (ih hm).1, List.mem_cons_of_mem _ (ih hm).2⟩

lemma pairsAfter_keys_nodup {ids : List Nat} (hids : ids.Nodup) :
    ((pairsAfter ids).map (fun p => pairKey p.1 p.2)).Nodup := by
  induction ids with
  | nil => simp [pairsAfter]
  | cons a rest ih =>
    simp only [List.nodup_cons] at hids
    rw [pairsAfter, List.map_append, List.map_map]
    apply List.Nodup.append
    · apply List.Nodup.map_on _ hids.2
      intro x hx y hy hxy
      simp only [Function.comp] at hxy
      rcases pairKey_eq_iff.mp hxy with ⟨_, h2⟩ | ⟨h1, h2⟩
      · exact h2
      · exact absurd (h1 ▸ hy) hids.1
    · exact ih hids.2
    · intro k hk1 hk2
      obtain ⟨x, hx, rfl⟩ := List.mem_map.mp hk1
      obtain ⟨q, hq, hkq⟩ := List.mem_map.mp hk2
      simp only [Function.comp] at hkq
      rcases pairKey_eq_iff.mp hkq with ⟨h1, _⟩ | ⟨_, h2⟩
      · exact hids.1 (h1 ▸ (pairsAfter_mem hq).1)
      · exact hids.1 (h2 ▸ (pairsAfter_mem hq).2)

lemma pairsAfter_covers {ids : List Nat} {a b : Nat} (ha : a ∈ ids)
    (hb : b ∈ ids) (hab : a ≠ b) :
    ∃ p ∈ pairsAfter ids, pairKey p.1 p.2 = pairKey a b := by
  induction ids with
  | nil => simp at ha
  | cons x rest ih =>
    rcases List.mem_cons.mp ha with rfl | ha2
    · have hb2 : b ∈ rest := by
        rcases List.mem_cons.mp hb with rfl | h
        · exact absurd rfl hab
        · exact h
      exact ⟨(a, b), by
        rw [pairsAfter]
        exact List.mem_append_left _ (List.mem_map.mpr ⟨b, hb2, rfl⟩), rfl⟩
    · rcases List.mem_cons.mp hb with rfl | hb2
      · have ha3 : a ∈ rest := ha2
        refine ⟨(b, a), ?_, ?_⟩
        · rw [pairsAfter]
          exact List.mem_append_left _ (List.mem_map.mpr ⟨a, ha3, rfl⟩)
        · exact pairKey_eq_iff.mpr (Or.inr ⟨rfl, rfl⟩)
      · obtain ⟨p, hp, hk⟩ := ih ha2 hb2
        exact ⟨p, by rw [pairsAfter]; exact List.mem_append_right _ hp, hk⟩

lemma computeConnections_normal (sim : Nat → Nat → Rat) (θ : Rat)
    (existing : List ConnRec) :
    ∀ (ps : List (Nat × Nat)) (acc : List ConnRec),
      ((ps.map (fun p => pairKey p.1 p.2)).Nodup) →
      (∀ p ∈ ps, ∀ c ∈ acc, connKey c ≠ pairKey p.1 p.2) →
      ps.foldl (fun acc p =>
        if sim p.1 p.2 ≥ θ then
          if linkedEither (existing ++ acc) p.1 p.2 then acc
          else acc ++ [⟨p.1, p.2, sim p.1 p.2⟩]
        else acc) acc =
      acc ++ (ps.filter (fun p =>
          decide (sim p.1 p.2 ≥ θ) && !linkedEither existing p.1 p.2)).map
        (fun p => (⟨p.1, p.2, sim p.1 p.2⟩ : ConnRec)) := by
  intro ps
  induction ps with
  | nil => intro acc _ _; simp
  | cons p rest ih =>
    intro acc hnd hdisj
    simp only [List.map_cons, List.nodup_cons] at hnd
    rw [List.foldl_cons, List.filter_cons]
    by_cases hsim : sim p.1 p.2 ≥ θ
    · rw [if_pos hsim]
      have hacc : linkedEither acc p.1 p.2 = false := by
        rw [Bool.eq_false_iff]
        intro hcontra
        obtain ⟨c, hc, hk⟩ := (linkedEither_iff acc p.1 p.2).mp hcontra
        exact hdisj p (List.mem_cons_self _ _) c hc hk
      have hdec : decide (sim p.1 p.2 ≥ θ) = true := by simp [hsim]
      rw [linkedEither_append]
      by_cases hex : linkedEither existing p.1 p.2
      · simp only [hex, hacc, Bool.true_or, if_true, Bool.not_true,
          Bool.and_false, Bool.false_eq_true, if_false]
        exact ih acc hnd.2
          (fun q hq c hc => hdisj q (List.mem_cons_of_mem _ hq) c hc)
      · rw [Bool.not_eq_true] at hex
        have hdisj2 : ∀ q ∈ rest, ∀ c ∈ acc ++
            [(⟨p.1, p.2, sim p.1 p.2⟩ : ConnRec)],
            connKey c ≠ pairKey q.1 q.2 := by
          intro q hq c hc
          rcases List.mem_append.mp hc with hc2 | hc2
          · exact hdisj q (List.mem_cons_of_mem _ hq) c hc2
          · obtain rfl : c = ⟨p.1, p.2, sim p.1 p.2⟩ := by simpa using hc2
            intro hkq
            apply hnd.1
            rw [show pairKey p.1 p.2 = pairKey q.1 q.2 from hkq]
            exact List.mem_map.mpr ⟨q, hq, rfl⟩
        simp only [hex, hacc, Bool.or_self, Bool.false_eq_true, if_false,
          Bool.not_false, hdec, Bool.true_and, if_true]
        rw [ih _ hnd.2 hdisj2]
        simp
    · have hcond : (decide (sim p.1 p.2 ≥ θ) &&
          !linkedEither existing p.1 p.2) = false := by simp [hsim]
      rw [if_neg hsim, hcond]
      simp only [Bool.false_eq_true, if_false]
      exact ih acc hnd.2
        (fun q hq c hc => hdisj q (List.mem_cons_of_mem _ hq) c hc)

end ConnectionLemmas

/-- C7: the connection-computation task creates a similarity link for an
unordered pair of distinct embedded articles exactly when the similarity
score reaches the threshold (inclusive comparison) and no link already
exists in either direction — the pre-insert lookup checks both (A, B) and
(B, A) — and the resulting table holds at most one link per unordered pair,
whichever order the articles are enumerated in (the characterization of the
created keys does not depend on the enumeration order).  The numeric cosine
kernel is abstracted as the symmetric scoring function sim. -/
theorem connection_threshold_dedup (sim : Nat → Nat → Rat) (θ : Rat)
    (ids : List Nat) (existing : List ConnRec)
    (hids : ids.Nodup)
    (hsym : ∀ a b, sim a b = sim b a)
    (hexn : (existing.map connKey).Nodup) :
    (∀ a b, a ∈ ids → b ∈ ids → a ≠ b →
      ((∃ c ∈ computeConnectionsTask sim θ ids existing,
          connKey c = pairKey a b) ↔
        (sim a b ≥ θ ∧ ¬ ∃ c ∈ existing, connKey c = pairKey a b))) ∧
    ((existing ++ computeConnectionsTask sim θ ids existing).map
        connKey).Nodup := by
  have hN : computeConnectionsTask sim θ ids existing =
      ((pairsAfter ids).filter (fun p =>
        decide (sim p.1 p.2 ≥ θ) && !linkedEither existing p.1 p.2)).map
        (fun p => (⟨p.1, p.2, sim p.1 p.2⟩ : ConnRec)) := by
    unfold computeConnectionsTask
    rw [computeConnections_normal sim θ existing (pairsAfter ids) []
      (pairsAfter_keys_nodup hids) (by simp)]
    simp
  have hsimkey : ∀ (p : Nat × Nat) (a b : Nat),
      pairKey p.1 p.2 = pairKey a b → sim p.1 p.2 = sim a b := by
    intro p a b hk
    rcases pairKey_eq_iff.mp hk with ⟨h1, h2⟩ | ⟨h1, h2⟩
    · rw [h1, h2]
    · rw [h1, h2, hsym]
  have hmem : ∀ K, (∃ c ∈ computeConnectionsTask sim θ ids existing,
      connKey c = K) ↔
      ∃ p ∈ pairsAfter ids, pairKey p.1 p.2 = K ∧ sim p.1 p.2 ≥ θ ∧
        linkedEither existing p.1 p.2 = false := by
    intro K
    rw [hN]
    constructor
    · rintro ⟨c, hc, hk⟩
      obtain ⟨p, hp, rfl⟩ := List.mem_map.mp hc
      have hq := (List.mem_filter.mp hp).2
      simp only [Bool.and_eq_true, decide_eq_true_eq, Bool.not_eq_true',
        ge_iff_le] at hq
      exact ⟨p, (List.mem_filter.mp hp).1, hk, hq.1, hq.2⟩
    · rintro ⟨p, hp, hk, hsim, hlink⟩
      refine ⟨⟨p.1, p.2, sim p.1 p.2⟩, ?_, hk⟩
      apply List.mem_map.mpr
      refine ⟨p, List.mem_filter.mpr ⟨hp, ?_⟩, rfl⟩
      simp [hsim, hlink]
  constructor
  · intro a b ha hb hab
    rw [hmem]
    constructor
    · rintro ⟨p, hp, hk, hsim, hlink⟩
      refine ⟨by rw [← hsimkey p a b hk]; exact hsim, ?_⟩
      rintro ⟨c, hc, hck⟩
      rw [Bool.eq_false_iff] at hlink
      exact hlink ((linkedEither_iff existing p.1 p.2).mpr ⟨c, hc, hck.trans hk.symm⟩)
    · rintro ⟨hsab, hnoex⟩
      obtain ⟨p, hp, hk⟩ := pairsAfter_covers ha hb hab
      refine ⟨p, hp, hk, by rw [hsimkey p a b hk]; exact hsab, ?_⟩
      rw [Bool.eq_false_iff]
      intro hcontra
      obtain ⟨c, hc, hck⟩ := (linkedEither_iff existing p.1 p.2).mp hcontra
      exact hnoex ⟨c, hc, hck.trans hk⟩
  · rw [List.map_append]
    apply List.Nodup.append hexn
    · rw [hN, List.map_map]
      have hsub : ((pairsAfter ids).filter (fun p =>
          decide (sim p.1 p.2 ≥ θ) && !linkedEither existing p.1 p.2)).map
          (connKey ∘ fun p => (⟨p.1, p.2, sim p.1 p.2⟩ : ConnRec)) =
          ((pairsAfter ids).filter (fun p =>
          decide (sim p.1 p.2 ≥ θ) && !linkedEither existing p.1 p.2)).map
          (fun p => pairKey p.1 p.2) := by
        apply List.map_congr_left
        intro p _
        rfl
      rw [hsub]
      exact (pairsAfter_keys_nodup hids).sublist
        (List.Sublist.map _ (List.filter_sublist _))
    · intro k hk1 hk2
      have hk2b : ∃ c ∈ computeConnectionsTask sim θ ids existing,
          connKey c = k := by
        obtain ⟨c, hc, rfl⟩ := List.mem_map.mp hk2
        exact ⟨c, hc, rfl⟩
      obtain ⟨p, hp, hkp, hsim, hlink⟩ := (hmem k).mp hk2b
      obtain ⟨c, hc, rfl⟩ := List.mem_map.mp hk1
      rw [Bool.eq_false_iff] at hlink
      exact hlink ((linkedEither_iff existing p.1 p.2).mpr ⟨c, hc, hkp.symm⟩)

/-- Witness for C7: three articles with pairwise scores where only pair
(1, 2) reaches threshold 7/10 and no link previously exists. -/
theorem connection_threshold_dedup_witness :
    ([1, 2, 3] : List Nat).Nodup ∧
    (∀ a b, (fun x y => ((min x y + max x y : Nat) : Rat) / 10) a b =
      (fun x y => ((min x y + max x y : Nat) : Rat) / 10) b a) ∧
    (([] : List ConnRec).map connKey).Nodup ∧
    (∀ a b, a ∈ ([1, 2, 3] : List Nat) → b ∈ ([1, 2, 3] : List Nat) →
      a ≠ b →
      ((∃ c ∈ computeConnectionsTask
          (fun x y => ((min x y + max x y : Nat) : Rat) / 10) (7/10)
          [1, 2, 3] [], connKey c = pairKey a b) ↔
        ((fun x y => ((min x y + max x y : Nat) : Rat) / 10) a b ≥ 7/10 ∧
          ¬ ∃ c ∈ ([] : List ConnRec), connKey c = pairKey a b))) ∧
    (((([] : List ConnRec) ++ computeConnectionsTask
        (fun x y => ((min x y + max x y : Nat) : Rat) / 10) (7/10)
        [1, 2, 3] []).map connKey).Nodup) := by
  have h := connection_threshold_dedup
    (fun x y => ((min x y + max x y : Nat) : Rat) / 10) (7/10) [1, 2, 3] []
    (by decide) (fun a b => by simp [Nat.min_comm, Nat.max_comm, Nat.add_comm])
    (by simp)
  exact ⟨by decide,
    fun a b => by simp [Nat.min_comm, Nat.max_comm, Nat.add_comm],
    by simp, h.1, h.2⟩

/-! WebSocket subscription endpoint. -/

/-- Messages pushed to one connection: the initial job_state snapshot
(websocket.py, lines 47-59) or a job_update pushed through
send_job_update. -/
inductive WsMsg where
  | jobState (job_id : Nat) (status : String) (progress : Int)
      (total_items processed_items created_items : Nat)
      (error_message : Option String) (result : Option JobResultPayload)
  | jobUpdate (job_id : Nat) (data : UpdateData)
deriving DecidableEq, Repr

/-- Snapshot message carrying the current state of the job row. -/
def snapshotMsg (jid : Nat) (job : JobRec) : WsMsg :=
  .jobState jid job.status job.progress job.total_items job.processed_items
    job.created_items job.error_message job.result

/-- Subscribe phase of websocket_job_updates (websocket.py, lines 37-59):
when the job id is unknown the socket is closed with code 1008 without being
registered; otherwise the connection is registered under the job id and the
snapshot is sent to it through send_personal_message.  Returns the registry
afterwards and the messages delivered to the connection. -/
def websocketSubscribe (store : List JobRec) (reg : CMState) (ws : Conn)
    (jid : Nat) (fails : Conn → Bool) : CMState × List WsMsg :=
  match getJob store jid with
  | none => (reg, [])
  | some job =>
    let reg2 := reg.connect ws (some jid)
    let pm := reg2.sendPersonalMessage fails ws
    (pm.1, if pm.2 then [snapshotMsg jid job] else [])

/-- Messages a connection receives from a sequence of job updates pushed
through send_job_update after it subscribed (no send failures). -/
def deliverUpdates (reg : CMState) (jid : Nat) (ws : Conn) :
    List UpdateData → List WsMsg
  | [] => []
  | d :: rest =>
    let r := reg.sendJobUpdate (fun _ => false) jid
    (if ws ∈ r.delivered then [WsMsg.jobUpdate jid d] else []) ++
      deliverUpdates r.state jid ws rest

/-- Full receive sequence of one connection: the subscribe phase followed by
the subsequently pushed updates. -/
def receivedAfterSubscribe (store : List JobRec) (reg : CMState) (ws : Conn)
    (jid : Nat) (fails : Conn → Bool) (updates : List UpdateData) :
    List WsMsg :=
  (websocketSubscribe store reg ws jid fails).2 ++
    deliverUpdates (websocketSubscribe store reg ws jid fails).1 jid ws updates

section WebsocketLemmas

lemma mem_setAdd (l : List Conn) (x : Conn) : x ∈ setAdd l x := by
  unfold setAdd
  split
  · assumption
  · simp

lemma mem_subscribers_connect (s : CMState) (ws : Conn) (j : Nat) :
    ws ∈ (s.connect ws (some j)).subscribers j := by
  unfold CMState.connect CMState.subscribers
  cases hl : s.active.lookup j with
  | none =>
    simp only [hl]
    rw [List.lookup_append, hl]
    simp [lookup_cons_eq]
  | some S =>
    simp only [hl]
    rw [lookup_replaceEntry_self _ hl]
    simpa using mem_setAdd S ws

lemma sendJobUpdate_noFails (s : CMState) (j : Nat) :
    s.sendJobUpdate (fun _ => false) j = ⟨s, s.subscribers j, s.subscribers j⟩ := by
  unfold CMState.sendJobUpdate CMState.subscribers
  cases hl : s.active.lookup j with
  | none => simp [hl]
  | some S => simp [hl]

lemma deliverUpdates_all (reg : CMState) (jid : Nat) (ws : Conn)
    (updates : List UpdateData) (hmem : ws ∈ reg.subscribers jid) :
    deliverUpdates reg jid ws updates = updates.map (WsMsg.jobUpdate jid) := by
  induction updates with
  | nil => rfl
  | cons d rest ih =>
    rw [deliverUpdates, sendJobUpdate_noFails]
    simp only [hmem, if_pos]
    rw [ih]
    rfl

end WebsocketLemmas

/-- C8: a connection subscribing to an existing job is registered and then
immediately receives exactly one snapshot message carrying the job's current
status, progress, item counters, error_message and result; every
subsequently pushed update reaches it only after that snapshot in its
receive sequence. -/
theorem subscribe_snapshot_first (store : List JobRec) (reg : CMState)
    (ws : Conn) (jid : Nat) (job : JobRec) (fails : Conn → Bool)
    (hjob : getJob store jid = some job) (hok : fails ws = false) :
    ws ∈ ((websocketSubscribe store reg ws jid fails).1).subscribers jid ∧
    (websocketSubscribe store reg ws jid fails).2 =
      [WsMsg.jobState jid job.status job.progress job.total_items
        job.processed_items job.created_items job.error_message job.result] ∧
    ∀ updates, receivedAfterSubscribe store reg ws jid fails updates =
      WsMsg.jobState jid job.status job.progress job.total_items
          job.processed_items job.created_items job.error_message job.result ::
        updates.map (WsMsg.jobUpdate jid) := by
  have hsub : websocketSubscribe store reg ws jid fails =
      (reg.connect ws (some jid), [snapshotMsg jid job]) := by
    unfold websocketSubscribe
    rw [hjob]
    simp [CMState.sendPersonalMessage, hok]
  refine ⟨?_, ?_, ?_⟩
  · rw [hsub]
    exact mem_subscribers_connect reg ws jid
  · rw [hsub]
    rfl
  · intro updates
    unfold receivedAfterSubscribe
    rw [hsub]
    simp only []
    rw [deliverUpdates_all _ _ _ _ (mem_subscribers_connect reg ws jid)]
    rfl

/-- Witness for C8: connection 4 subscribes to the stored running job 3 and
then receives two pushed updates after the snapshot. -/
theorem subscribe_snapshot_first_witness :
    getJob [{ mkJob 3 "topic_research" 8 0 with
        status := "running", progress := 70, started_at := some 0 }] 3 =
      some { mkJob 3 "topic_research" 8 0 with
        status := "running", progress := 70, started_at := some 0 } ∧
    (fun _ : Conn => false) 4 = false ∧
    (4 ∈ ((websocketSubscribe [{ mkJob 3 "topic_research" 8 0 with
        status := "running", progress := 70, started_at := some 0 }]
        CMState.empty 4 3 (fun _ => false)).1).subscribers 3 ∧
      (websocketSubscribe [{ mkJob 3 "topic_research" 8 0 with
        status := "running", progress := 70, started_at := some 0 }]
        CMState.empty 4 3 (fun _ => false)).2 =
        [WsMsg.jobState 3 "running" 70 8 0 0 none none] ∧
      ∀ updates, receivedAfterSubscribe [{ mkJob 3 "topic_research" 8 0 with
        status := "running", progress := 70, started_at := some 0 }]
        CMState.empty 4 3 (fun _ => false) updates =
        WsMsg.jobState 3 "running" 70 8 0 0 none none ::
          updates.map (WsMsg.jobUpdate 3)) := by
  have h := subscribe_snapshot_first
    [{ mkJob 3 "topic_research" 8 0 with
      status := "running", progress := 70, started_at := some 0 }]
    CMState.empty 4 3
    { mkJob 3 "topic_research" 8 0 with
      status := "running", progress := 70, started_at := some 0 }
    (fun _ => false) (by decide) rfl
  exact ⟨by decide, rfl, h⟩

end ContentCurator
